import Mathlib

/-!
Verification of the black-george-console CSV/Notion/Supabase import scripts.

Shallow embedding of the data-transformation and reconciliation logic of
`import_cre_data.py`, `scripts/csv_import.py` and `scripts/notion_supabase_sync.py`.

Python strings are modelled as `List Char` (`PyStr`).  Python's `str` helpers
(`strip`, `upper`, `lower`, `title`, `split`, `join`) and the regular
expressions actually used by the scripts (`[,\s]`, `[,;/|]`, `\D`,
`[\$]?([0-9]+\.?[0-9]*)`) are given ASCII semantics, which covers the data the
scripts process; `int()` is modelled with Python's optional sign and
digit-grouping underscores, `float()` without exponent notation.  Numeric
values (`float` results, coordinates) are modelled as exact rationals `ℚ`:
none of the verified properties depends on binary rounding.
-/

namespace CreConsole

/-- Python strings, modelled as lists of characters. -/
abbrev PyStr := List Char

/-- The whitespace class of Python's `str.strip` and of `\s` in `re`
(ASCII part): space, tab, newline, carriage return, vertical tab, form feed. -/
def pyWS (c : Char) : Bool :=
  c = ' ' || c = '\t' || c = '\n' || c = '\r' || c = '\x0b' || c = '\x0c'

/-- Python `str.strip()`: remove leading and trailing whitespace. -/
def pyStrip (l : PyStr) : PyStr := (l.dropWhile pyWS).rdropWhile pyWS

/-- Python `str.upper()` (ASCII). -/
def pyUpper (l : PyStr) : PyStr := l.map Char.toUpper

/-- Python `str.lower()` (ASCII). -/
def pyLower (l : PyStr) : PyStr := l.map Char.toLower

/-- Python `str.split(sep)` for a single-character separator, and `re.split`
with a character class: splits at every separator occurrence, keeping empty
pieces, so the result always has one more piece than there are separators. -/
def pySplitP (p : Char → Bool) : PyStr → List PyStr
  | [] => [[]]
  | c :: rest =>
    match pySplitP p rest with
    | [] => [[]]
    | w :: ws => if p c then [] :: w :: ws else (c :: w) :: ws

/-- Python `s.split(sep)` for one separator character. -/
def pySplit (sep : Char) : PyStr → List PyStr := pySplitP (· = sep)

/-- Python `','.join(parts)`: the pieces separated by single commas. -/
def joinComma : List PyStr → PyStr
  | [] => []
  | [t] => t
  | t :: ts => t ++ ',' :: joinComma ts

/-- Value of one decimal digit. -/
def digitVal (c : Char) : Nat := c.toNat - 48

/-- Numeric value of a digit string, skipping Python's grouping underscores. -/
def natOfDigits (l : PyStr) : Nat :=
  l.foldl (fun a c => if c = '_' then a else a * 10 + digitVal c) 0

/-- Tail of a valid Python integer-literal body: digits with single grouping
underscores strictly between digits. -/
def groupedRest : PyStr → Bool
  | [] => true
  | c :: rest =>
    if c = '_' then
      match rest with
      | [] => false
      | d :: rest2 => d.isDigit && groupedRest rest2
    else c.isDigit && groupedRest rest

/-- A valid Python integer-literal body (`digit+` with grouping underscores). -/
def groupedDigits : PyStr → Bool
  | [] => false
  | c :: rest => c.isDigit && groupedRest rest

/-- Python `int(s)` on an already-whitespace-free string: optional sign, then
a digit string (with grouping underscores); `none` models `ValueError`. -/
def pyInt? : PyStr → Option Int
  | '+' :: rest => if groupedDigits rest then some (natOfDigits rest : Int) else none
  | '-' :: rest => if groupedDigits rest then some (-(natOfDigits rest : Int)) else none
  | l => if groupedDigits l then some (natOfDigits l : Int) else none

/-- Value of a fractional digit string, skipping grouping underscores:
`digits / 10 ^ count`, built with `mkRat` so that it evaluates. -/
def fracVal (l : PyStr) : ℚ :=
  mkRat (natOfDigits l) (10 ^ (l.filter (fun c => c ≠ '_')).length)

/-- Body of a Python `float` literal: `digits [. digits?]` or `. digits`
(exponent notation, `inf` and `nan` do not occur in this data and are not
modelled). -/
def pyFloatBody? (l : PyStr) : Option ℚ :=
  let intPart := l.takeWhile (fun c => c ≠ '.')
  match l.dropWhile (fun c => c ≠ '.') with
  | [] => if groupedDigits intPart then some (mkRat (natOfDigits intPart) 1) else none
  | _ :: frac =>
    if frac.contains '.' then none
    else
      match intPart, frac with
      | [], [] => none
      | [], f => if groupedDigits f then some (fracVal f) else none
      | i, [] => if groupedDigits i then some (mkRat (natOfDigits i) 1) else none
      | i, f =>
        if groupedDigits i && groupedDigits f then
          some (mkRat (natOfDigits i * 10 ^ (f.filter (fun c => c ≠ '_')).length +
            natOfDigits f) (10 ^ (f.filter (fun c => c ≠ '_')).length))
        else none

/-- Python `float(s)`: strip whitespace, optional sign, then a float body;
`none` models `ValueError`. -/
def pyFloat? (l : PyStr) : Option ℚ :=
  match pyStrip l with
  | '+' :: rest => pyFloatBody? rest
  | '-' :: rest => (pyFloatBody? rest).map Neg.neg
  | l' => pyFloatBody? l'

/-- Python `int(q)` on a float: truncation toward zero. -/
def pyTrunc (q : ℚ) : Int := if 0 ≤ q then ⌊q⌋ else ⌈q⌉

/-- One step of Python `str.title()` (ASCII): `prev` records whether the
previous character was alphabetic. -/
def pyTitleGo : Bool → PyStr → PyStr
  | _, [] => []
  | prev, c :: rest =>
    if c.isAlpha then
      (if prev then c.toLower else c.toUpper) :: pyTitleGo true rest
    else
      c :: pyTitleGo false rest

/-- Python `str.title()` (ASCII): each alphabetic run starts upper-case and
continues lower-case. -/
def pyTitle (l : PyStr) : PyStr := pyTitleGo false l

/-- Does the string contain a decimal digit? -/
def hasDigit (l : PyStr) : Bool := l.any Char.isDigit

/-! ## Value parsers

Embeddings of the free-text field parsers of `import_cre_data.py` and of
`scripts/notion_supabase_sync.py` (`PropertyDataTransformer`). -/

/-- Guard of `import_cre_data.parse_square_footage` (also of its `parse_rate`):
`not text or text.upper() == 'N/A' or text.strip() == ''`. -/
def sqftGuard (s : PyStr) : Bool :=
  s.isEmpty || pyUpper s = "N/A".toList || pyStrip s = []

/-- `re.sub(r'[,\s]', '', text)`: drop commas and whitespace. -/
def sqftClean (s : PyStr) : PyStr := s.filter (fun c => !(c = ',' || pyWS c))

/-- `import_cre_data.parse_square_footage`: guard, clean, then either a
hyphen-separated range (empty side → `none` on that side, `int` failure on a
nonempty side → `(none, none)`) or a single integer `(v, v)`; `int` failure →
`(none, none)`.  Python's `parts[0]`/`parts[1]` of `cleaned.split('-')` are
the first two pieces of the split. -/
def parse_square_footage (s : PyStr) : Option Int × Option Int :=
  if sqftGuard s then (none, none)
  else
    let cleaned := sqftClean s
    if cleaned.contains '-' then
      let parts := pySplit '-' cleaned
      let p0 := parts.getD 0 []
      let p1 := parts.getD 1 []
      match (if p0.isEmpty then some none else (pyInt? p0).map some),
            (if p1.isEmpty then some none else (pyInt? p1).map some) with
      | some mn, some mx => (mn, mx)
      | _, _ => (none, none)
    else
      match pyInt? cleaned with
      | some v => (some v, some v)
      | none => (none, none)

/-- Guard of `PropertyDataTransformer.parse_square_footage` (and of its
`parse_rate`): `not text or text.upper() in ['N/A', 'TBD', '']`. -/
def sqftGuardSync (s : PyStr) : Bool :=
  s.isEmpty || pyUpper s = "N/A".toList || pyUpper s = "TBD".toList || pyUpper s = []

/-- `PropertyDataTransformer.parse_square_footage`
(`scripts/notion_supabase_sync.py`): like `parse_square_footage`, but the
range branch fires only when the split has exactly two pieces and requires
both to parse (an empty side is an `int` failure); with a different number of
pieces control falls through to the single-value branch. -/
def parse_square_footage_sync (s : PyStr) : Option Int × Option Int :=
  if sqftGuardSync s then (none, none)
  else
    let cleaned := sqftClean s
    let viaRange : Option (Option Int × Option Int) :=
      if cleaned.contains '-' then
        let parts := pySplit '-' cleaned
        if parts.length = 2 then
          match pyInt? (parts.getD 0 []), pyInt? (parts.getD 1 []) with
          | some a, some b => some (some a, some b)
          | _, _ => some (none, none)
        else none
      else none
    match viaRange with
    | some r => r
    | none =>
      match pyInt? cleaned with
      | some v => (some v, some v)
      | none => (none, none)

/-- Value of the regex match `[0-9]+\.?[0-9]*` anchored at the start of `l`
(whose head is a digit): the maximal digit run, then an optional `.` followed
by a maximal digit run, converted by Python `float` — the exact rational
`int.frac = (int * 10^k + frac) / 10^k`, built with `mkRat` so that it
evaluates. -/
def numberAt (l : PyStr) : ℚ :=
  let ds := l.takeWhile Char.isDigit
  match l.dropWhile Char.isDigit with
  | '.' :: rest =>
    let fs := rest.takeWhile Char.isDigit
    mkRat (natOfDigits ds * 10 ^ fs.length + natOfDigits fs) (10 ^ fs.length)
  | _ => mkRat (natOfDigits ds) 1

/-- `re.search` semantics for the pattern `[\$]?([0-9]+\.?[0-9]*)`: the
leftmost match's group starts at the first digit of the text (a `[\$]?`
prefix never changes the group), so the result is the number anchored at the
first digit, or `none` when the text has no digit. -/
def scanNumber : PyStr → Option ℚ
  | [] => none
  | c :: rest => if c.isDigit then some (numberAt (c :: rest)) else scanNumber rest

/-- `import_cre_data.parse_rate`: guard, then search
`[\$]?([0-9]+\.?[0-9]*)` in the text with commas removed and convert the
group with `float`. -/
def parse_rate (s : PyStr) : Option ℚ :=
  if sqftGuard s then none
  else scanNumber (s.filter (fun c => c ≠ ','))

/-- `PropertyDataTransformer.parse_rate`: guard (including `TBD`), strip `$`
and `,` via `re.sub(r'[\$,]', '', text)`, then search `(\d+\.?\d*)`. -/
def parse_rate_sync (s : PyStr) : Option ℚ :=
  if sqftGuardSync s then none
  else scanNumber (s.filter (fun c => !(c = '$' || c = ',')))

/-- `import_cre_data.parse_building_types` (lenient variant): blank input →
`['Unknown']`; otherwise split on commas, strip each piece, keep the
nonempty ones. -/
def parse_building_types (s : PyStr) : List PyStr :=
  if s.isEmpty || pyStrip s = [] then ["Unknown".toList]
  else ((pySplit ',' s).map pyStrip).filter (fun t => !t.isEmpty)

/-- The separator class `[,;/|]` of `DataValidator.clean_building_types`. -/
def btSep (c : Char) : Bool := c = ',' || c = ';' || c = '/' || c = '|'

/-- The loop body of `DataValidator.clean_building_types`:
`bt = bt.strip().title(); if bt and bt not in cleaned_types: append`. -/
def cleanBtStep (acc : List PyStr) (t : PyStr) : List PyStr :=
  let bt := pyTitle (pyStrip t)
  if !bt.isEmpty && !acc.contains bt then acc ++ [bt] else acc

/-- `DataValidator.clean_building_types` (strict variant,
`scripts/csv_import.py`): empty input → `[]`; otherwise split on `[,;/|]`,
strip and title-case each piece, and append it when nonempty and not yet
present (first-seen order, deduplicated). -/
def clean_building_types (s : PyStr) : List PyStr :=
  if s.isEmpty then []
  else (pySplitP btSep s).foldl cleanBtStep []

/-- `DataValidator.clean_phone_number`: strip non-digits (`re.sub(r'\D', '',
phone)`); 10 digits → `(AAA) BBB-CCCC`; 11 digits starting with `1` → the
same dropping the leading `1`; otherwise the original string. -/
def clean_phone_number (s : PyStr) : PyStr :=
  if s.isEmpty then []
  else
    let digits := s.filter Char.isDigit
    if digits.length = 10 then
      '(' :: digits.take 3 ++ ')' :: ' ' :: (digits.drop 3).take 3 ++ '-' :: digits.drop 6
    else if digits.length = 11 && digits.headD ' ' = '1' then
      let d := digits.tail
      '(' :: d.take 3 ++ ')' :: ' ' :: (d.drop 3).take 3 ++ '-' :: d.drop 6
    else s

/-- `import_cre_data.validate_coordinates`: `False` when either coordinate is
missing, otherwise the range check `-90 ≤ lat ≤ 90 and -180 ≤ lng ≤ 180`. -/
def validate_coordinates (lat lng : Option ℚ) : Bool :=
  match lat, lng with
  | some la, some ln =>
    decide (-90 ≤ la) && decide (la ≤ 90) && decide (-180 ≤ ln) && decide (ln ≤ 180)
  | _, _ => false

/-- `DataValidator.validate_coordinates` (`scripts/csv_import.py`): `True`
when either coordinate is missing (coordinates are optional), otherwise the
same range check. -/
def validate_coordinates_opt (lat lng : Option ℚ) : Bool :=
  match lat, lng with
  | some la, some ln =>
    decide (-90 ≤ la) && decide (la ≤ 90) && decide (-180 ≤ ln) && decide (ln ≤ 180)
  | _, _ => true

/-- The coordinate-nulling step of `import_cre_data.import_csv_to_supabase`
(lines 167-172): only when both coordinates are present are they validated,
and an invalid pair is nulled out entirely; otherwise the (possibly
one-sided) pair is left unchanged. -/
def coord_nulling (latitude longitude : Option ℚ) : Option ℚ × Option ℚ :=
  if longitude.isSome && latitude.isSome then
    if validate_coordinates latitude longitude then (latitude, longitude)
    else (none, none)
  else (latitude, longitude)

/-! ## Field mapper (`CSVFieldMapper`, `scripts/csv_import.py`) -/

/-- The `FIELD_MAPPINGS` alias table, in source order. -/
def FIELD_MAPPINGS : List (PyStr × List PyStr) :=
  [("address".toList,
     ["address".toList, "street_address".toList, "street".toList,
      "property_address".toList, "addr".toList]),
   ("city".toList, ["city".toList, "municipality".toList, "town".toList]),
   ("state".toList, ["state".toList, "province".toList, "st".toList]),
   ("zip_code".toList,
     ["zip".toList, "zipcode".toList, "zip_code".toList, "postal_code".toList,
      "postal".toList]),
   ("county".toList, ["county".toList, "parish".toList]),
   ("building_types".toList,
     ["building_type".toList, "building_types".toList, "type".toList,
      "property_type".toList, "asset_type".toList]),
   ("tenancy".toList, ["tenancy".toList, "tenant_type".toList, "occupancy_type".toList]),
   ("square_footage".toList,
     ["square_footage".toList, "sq_ft".toList, "sqft".toList, "size".toList,
      "total_sq_ft".toList, "rentable_sf".toList]),
   ("number_of_suites".toList,
     ["suites".toList, "number_of_suites".toList, "units".toList, "num_suites".toList]),
   ("rate_text".toList,
     ["rate".toList, "rent".toList, "rate_per_sf".toList, "price_per_sf".toList,
      "asking_rate".toList]),
   ("latitude".toList, ["latitude".toList, "lat".toList, "y_coord".toList]),
   ("longitude".toList, ["longitude".toList, "lng".toList, "lon".toList, "x_coord".toList]),
   ("contact_name".toList,
     ["contact_name".toList, "contact".toList, "agent_name".toList, "broker_name".toList]),
   ("contact_email".toList,
     ["contact_email".toList, "email".toList, "agent_email".toList, "broker_email".toList]),
   ("contact_phone".toList,
     ["contact_phone".toList, "phone".toList, "agent_phone".toList, "broker_phone".toList]),
   ("description".toList,
     ["description".toList, "notes".toList, "comments".toList, "details".toList]),
   ("year_built".toList,
     ["year_built".toList, "built_year".toList, "construction_year".toList]),
   ("parking_spaces".toList,
     ["parking".toList, "parking_spaces".toList, "parking_spots".toList])]

/-- `CSVFieldMapper.map_csv_headers`: lower-case and strip every header; for
each canonical field take the first alias that equals one of the processed
headers and map the field to the original header at that position. -/
def map_csv_headers (headers : List PyStr) : List (PyStr × PyStr) :=
  let lower := headers.map (fun h => pyStrip (pyLower h))
  FIELD_MAPPINGS.foldl
    (fun acc fm =>
      match fm.2.find? (fun a => lower.contains (pyLower a)) with
      | some a => acc ++ [(fm.1, headers.getD (lower.indexOf (pyLower a)) [])]
      | none => acc)
    []

/-! ## Supabase store model and `CSVImporter.import_to_supabase`

The `cre_properties` table is a list of rows with integer ids.  Records keep
the fields the driver's logic reads (`address`, `city`) plus `rate_text` as a
representative payload field.  Remote failures are environment behaviour, so
they are an oracle supplied to the driver: each oracle field decides whether
the corresponding client call raises, given the record(s) and the current
table state. -/

structure SbRecord where
  address : PyStr
  city : PyStr
  rate_text : PyStr
deriving DecidableEq, Repr

structure SbRow where
  id : Nat
  record : SbRecord
deriving DecidableEq, Repr

structure SbDb where
  rows : List SbRow
  nextId : Nat
deriving DecidableEq, Repr

/-- The remote calls `import_to_supabase` can issue. -/
inductive SbOp where
  | insertBatch (rs : List SbRecord)
  | select (address city : PyStr)
  | insert (r : SbRecord)
  | update (id : Nat) (r : SbRecord)
deriving DecidableEq, Repr

/-- The running counters of `import_to_supabase`
(`{"created": 0, "updated": 0, "errors": 0, "skipped": 0}`). -/
structure ImportStats where
  created : Nat
  updated : Nat
  errors : Nat
  skipped : Nat
deriving DecidableEq, Repr

def initStats : ImportStats := ⟨0, 0, 0, 0⟩

/-- Failure oracle: which remote calls raise. -/
structure SbOracle where
  batchFail : List SbRecord → SbDb → Bool
  selectFail : SbRecord → SbDb → Bool
  insertFail : SbRecord → SbDb → Bool
  updateFail : SbRecord → SbDb → Bool

/-- `table.insert(record).execute()`: append a row with a fresh id. -/
def sbInsert (db : SbDb) (r : SbRecord) : SbDb :=
  { rows := db.rows ++ [⟨db.nextId, r⟩], nextId := db.nextId + 1 }

/-- `table.insert(batch).execute()`: insert every record of the batch. -/
def sbInsertBatch (db : SbDb) (rs : List SbRecord) : SbDb :=
  rs.foldl sbInsert db

/-- `table.select("id").eq("address", a).eq("city", c).execute()`. -/
def sbSelectByKey (db : SbDb) (address city : PyStr) : List SbRow :=
  db.rows.filter (fun row => row.record.address == address && row.record.city == city)

/-- `table.update(record).eq("id", i).execute()`. -/
def sbUpdate (db : SbDb) (i : Nat) (r : SbRecord) : SbDb :=
  { db with rows := db.rows.map (fun row => if row.id = i then { row with record := r } else row) }

/-- Driver state: table, counters, and the trace of issued remote calls
(a call is traced when issued, whether or not it raises). -/
structure RunState where
  db : SbDb
  stats : ImportStats
  trace : List SbOp
deriving DecidableEq, Repr

/-- The per-record fallback body of `import_to_supabase` (lines 382-398):
look up an existing row by address+city; update it when found, insert
otherwise; any raise inside the `try` counts one error for the record. -/
def handleRecord (o : SbOracle) (st : RunState) (r : SbRecord) : RunState :=
  let st := { st with trace := st.trace ++ [SbOp.select r.address r.city] }
  if o.selectFail r st.db then
    { st with stats := { st.stats with errors := st.stats.errors + 1 } }
  else
    match (sbSelectByKey st.db r.address r.city).head? with
    | some row =>
      let st := { st with trace := st.trace ++ [SbOp.update row.id r] }
      if o.updateFail r st.db then
        { st with stats := { st.stats with errors := st.stats.errors + 1 } }
      else
        { st with db := sbUpdate st.db row.id r,
                  stats := { st.stats with updated := st.stats.updated + 1 } }
    | none =>
      let st := { st with trace := st.trace ++ [SbOp.insert r] }
      if o.insertFail r st.db then
        { st with stats := { st.stats with errors := st.stats.errors + 1 } }
      else
        { st with db := sbInsert st.db r,
                  stats := { st.stats with created := st.stats.created + 1 } }

/-- One batch of `import_to_supabase` (lines 369-398): optimistic batch
insert counting `len(batch)` creates on success; on a raise, fall back to
`handleRecord` for every record of the batch in order. -/
def processBatch (o : SbOracle) (st : RunState) (batch : List SbRecord) : RunState :=
  let st := { st with trace := st.trace ++ [SbOp.insertBatch batch] }
  if o.batchFail batch st.db then
    batch.foldl (handleRecord o) st
  else
    { st with db := sbInsertBatch st.db batch,
              stats := { st.stats with created := st.stats.created + batch.length } }

/-- Fuel-indexed slicing; each slice consumes at least one element, so fuel
equal to the list length is always sufficient. -/
def chunkFuel (m : Nat) : Nat → List α → List (List α)
  | _, [] => []
  | 0, _ :: _ => []
  | fuel + 1, x :: xs => (x :: xs.take m) :: chunkFuel m fuel (xs.drop m)

/-- `records[i:i+batch_size]` slices for `i in range(0, len(records), m+1)`. -/
def chunkSucc (m : Nat) (l : List α) : List (List α) := chunkFuel m l.length l

/-- `CSVImporter.import_to_supabase`: process the records in slices of
`batch_size`.  `batch_size = 0` makes Python's `range(0, n, 0)` raise
`ValueError`, modelled by `none`. -/
def import_to_supabase (o : SbOracle) (records : List SbRecord) (batch_size : Nat)
    (db : SbDb) : Option RunState :=
  match batch_size with
  | 0 => none
  | m + 1 => some ((chunkSucc m records).foldl (processBatch o) ⟨db, initStats, []⟩)

/-! ## Notion pagination (`NotionClient`, `scripts/notion_supabase_sync.py`) -/

/-- One response of the workspace-database query endpoint: a results page,
the has-more flag and the continuation cursor.  The remote source is finite,
so the endpoint is modelled as the (finite) sequence of pages it serves to
the successive cursor-following calls. -/
structure NotionPage (α : Type) where
  results : List α
  has_more : Bool
  next_cursor : Option PyStr
deriving DecidableEq, Repr

/-- `NotionClient.get_all_properties`: `while has_more:` fetch the next page,
extend the accumulator, and continue with the returned cursor.  The loop is
total because the page sequence is finite. -/
def get_all_properties : List (NotionPage α) → List α
  | [] => []
  | p :: rest => p.results ++ (if p.has_more then get_all_properties rest else [])

/-! ## CSV pipeline (`CSVImporter`, `scripts/csv_import.py`)

A raw CSV row is an association list from header to cell; a missing cell
(`NaN`) is `none`.  `transform_csv_record` builds the canonical record whose
fields start absent (`none`); `building_types` distinguishes never-assigned
(`none`) from assigned-empty (`some []`), as the `['Unknown']` default only
fires in the first case. -/

abbrev RawRecord := List (PyStr × Option PyStr)

structure TRecord where
  address : Option PyStr := none
  city : Option PyStr := none
  state : Option PyStr := none
  zip_code : Option PyStr := none
  county : Option PyStr := none
  building_types : Option (List PyStr) := none
  tenancy : Option PyStr := none
  square_footage : Option PyStr := none
  number_of_suites : Option Int := none
  rate_text : Option PyStr := none
  latitude : Option ℚ := none
  longitude : Option ℚ := none
  contact_name : Option PyStr := none
  contact_email : Option PyStr := none
  contact_phone : Option PyStr := none
  description : Option PyStr := none
  year_built : Option Int := none
  parking_spaces : Option Int := none
  source : PyStr := []
deriving DecidableEq, Repr

/-- `record.get(csv_field)` on a raw row: a missing key behaves like `NaN`. -/
def lookupCell (record : RawRecord) (csv_field : PyStr) : Option PyStr :=
  (List.lookup csv_field record).join

/-- The generic `str(value).strip()` branch of `transform_csv_record`,
dispatched on the canonical field name. -/
def setStrField (t : TRecord) (field : PyStr) (v : PyStr) : TRecord :=
  if field = "address".toList then { t with address := some v }
  else if field = "city".toList then { t with city := some v }
  else if field = "state".toList then { t with state := some v }
  else if field = "zip_code".toList then { t with zip_code := some v }
  else if field = "county".toList then { t with county := some v }
  else if field = "tenancy".toList then { t with tenancy := some v }
  else if field = "square_footage".toList then { t with square_footage := some v }
  else if field = "rate_text".toList then { t with rate_text := some v }
  else if field = "contact_name".toList then { t with contact_name := some v }
  else if field = "contact_email".toList then { t with contact_email := some v }
  else if field = "description".toList then { t with description := some v }
  else t

/-- `CSVImporter.transform_csv_record`: walk the field mapping in order, skip
`NaN` and empty cells, apply the field-specific conversions (building types,
phone, float coordinates, integer counts), default `building_types` to
`['Unknown']` when never assigned, and set the source tag. -/
def transform_csv_record (fm : List (PyStr × PyStr)) (record : RawRecord) : TRecord :=
  let t := fm.foldl
    (fun (t : TRecord) pair =>
      match lookupCell record pair.2 with
      | none => t
      | some v =>
        if v = [] then t
        else if pair.1 = "building_types".toList then
          { t with building_types := some (clean_building_types v) }
        else if pair.1 = "contact_phone".toList then
          { t with contact_phone := some (clean_phone_number v) }
        else if pair.1 = "latitude".toList then
          match pyFloat? v with
          | some q => { t with latitude := some q }
          | none => t
        else if pair.1 = "longitude".toList then
          match pyFloat? v with
          | some q => { t with longitude := some q }
          | none => t
        else if pair.1 = "number_of_suites".toList then
          match pyFloat? v with
          | some q => { t with number_of_suites := some (pyTrunc q) }
          | none => t
        else if pair.1 = "year_built".toList then
          match pyFloat? v with
          | some q => { t with year_built := some (pyTrunc q) }
          | none => t
        else if pair.1 = "parking_spaces".toList then
          match pyFloat? v with
          | some q => { t with parking_spaces := some (pyTrunc q) }
          | none => t
        else setStrField t pair.1 (pyStrip v))
    {}
  let t := if t.building_types = none then { t with building_types := some ["Unknown".toList] } else t
  { t with source := "CSV Import".toList }

/-- A validation failure, abstracting the human-readable message text. -/
inductive VErr where
  | missingField (f : PyStr)
  | invalidAddress
  | invalidCoordinates
deriving DecidableEq, Repr

/-- Python truthiness of an optional string field. -/
def truthyStr : Option PyStr → Bool
  | some s => !s.isEmpty
  | none => false

/-- `DataValidator.validate_address`: nonempty and at least 5 characters
after stripping. -/
def validate_address (a : PyStr) : Bool :=
  !a.isEmpty && decide (5 ≤ (pyStrip a).length)

/-- `CSVImporter.validate_record`: required fields `address`, `city`,
`state`, `rate_text`; address format; optional-coordinate range check. -/
def validate_record (t : TRecord) : Bool × List VErr :=
  let errs : List VErr :=
    (if truthyStr t.address then [] else [.missingField "address".toList]) ++
    (if truthyStr t.city then [] else [.missingField "city".toList]) ++
    (if truthyStr t.state then [] else [.missingField "state".toList]) ++
    (if truthyStr t.rate_text then [] else [.missingField "rate_text".toList]) ++
    (if truthyStr t.address && !validate_address (t.address.getD []) then [.invalidAddress] else []) ++
    (if validate_coordinates_opt t.latitude t.longitude then [] else [.invalidCoordinates])
  (errs.isEmpty, errs)

/-- The transform-and-validate loop of `process_csv_file` (lines 446-463),
over rows numbered from `i`: valid records in order, the valid and invalid
counts, and one error entry (row number, messages) per invalid record. -/
def validationFold (fm : List (PyStr × PyStr)) :
    Nat → List RawRecord → List TRecord × Nat × Nat × List (Nat × List VErr)
  | _, [] => ([], 0, 0, [])
  | i, r :: rest =>
    let t := transform_csv_record fm r
    let v := validate_record t
    let acc := validationFold fm (i + 1) rest
    if v.1 then (t :: acc.1, acc.2.1 + 1, acc.2.2.1, acc.2.2.2)
    else (acc.1, acc.2.1, acc.2.2.1 + 1, (i, v.2) :: acc.2.2.2)

/-- Counters of `CSVImporter.import_to_notion`. -/
structure NotionStats where
  created : Nat
  errors : Nat
deriving DecidableEq, Repr

/-- `CSVImporter.import_to_notion`: one `create_property` call per record
(the created page is modelled as the record itself); a raise counts one
error and processing continues. -/
def import_to_notion (fail : TRecord → Bool) (records : List TRecord)
    (pages : List TRecord) : List TRecord × NotionStats :=
  records.foldl
    (fun (st : List TRecord × NotionStats) r =>
      if fail r then (st.1, { st.2 with errors := st.2.errors + 1 })
      else (st.1 ++ [r], { st.2 with created := st.2.created + 1 }))
    (pages, ⟨0, 0⟩)

inductive ImportTarget where
  | supabase
  | notion
  | both
deriving DecidableEq, Repr

/-- The `results` dictionary of `process_csv_file`.  `fatal` records that the
outer `except` caught an exception (`Fatal error: ...` appended). -/
structure ProcessResults where
  total_records : Nat
  valid_records : Nat
  invalid_records : Nat
  supabase_stats : Option ImportStats
  notion_stats : Option NotionStats
  errors : List (Nat × List VErr)
  fatal : Bool
deriving DecidableEq, Repr

/-- Outcome of a `process_csv_file` run: the results dictionary plus the
final state of both stores and the trace of remote Supabase calls issued. -/
structure ProcessOutcome where
  results : ProcessResults
  db : SbDb
  sbTrace : List SbOp
  notionPages : List TRecord
deriving Repr

/-- The SbRecord view of a transformed record as sent to the table. -/
def toSbRecord (t : TRecord) : SbRecord :=
  ⟨t.address.getD [], t.city.getD [], t.rate_text.getD []⟩

/-- `CSVImporter.process_csv_file`: transform and validate every row; in dry
run, return the counts and messages without touching either store; otherwise it
imports the valid records into the selected targets.  A `ValueError` from a
zero batch size aborts to the outer `except` (skipping the Notion import). -/
def process_csv_file (o : SbOracle) (nfail : TRecord → Bool) (hasNotion : Bool)
    (raw : List RawRecord) (fm : List (PyStr × PyStr)) (target : ImportTarget)
    (batch_size : Nat) (dry_run : Bool) (db : SbDb) (pages : List TRecord) :
    ProcessOutcome :=
  let v := validationFold fm 1 raw
  let valids := v.1
  let base : ProcessResults :=
    { total_records := raw.length, valid_records := v.2.1, invalid_records := v.2.2.1,
      supabase_stats := none, notion_stats := none, errors := v.2.2.2, fatal := false }
  if dry_run then ⟨base, db, [], pages⟩
  else
    let doNotionWith := fun (res : ProcessResults) (db' : SbDb) (tr : List SbOp) =>
      if (target = .notion || target = .both) && !valids.isEmpty then
        if hasNotion then
          let np := import_to_notion nfail valids pages
          ProcessOutcome.mk { res with notion_stats := some np.2 } db' tr np.1
        else ⟨res, db', tr, pages⟩
      else ⟨res, db', tr, pages⟩
    if (target = .supabase || target = .both) && !valids.isEmpty then
      match import_to_supabase o (valids.map toSbRecord) batch_size db with
      | none => ⟨{ base with fatal := true }, db, [], pages⟩
      | some st => doNotionWith { base with supabase_stats := some st.stats } st.db st.trace
    else doNotionWith base db []

/-- Failure-free oracle: every remote call succeeds. -/
def allOkOracle : SbOracle :=
  ⟨fun _ _ => false, fun _ _ => false, fun _ _ => false, fun _ _ => false⟩

/-- Oracle where every batch-level insert raises (such as a uniqueness
conflict) while the per-record calls succeed. -/
def batchFailOracle : SbOracle :=
  ⟨fun _ _ => true, fun _ _ => false, fun _ _ => false, fun _ _ => false⟩

def exRecordA : SbRecord := ⟨"10 Main St".toList, "Springfield".toList, "$10/sf".toList⟩

def exRecordB : SbRecord := ⟨"10 Main St".toList, "Springfield".toList, "$12/sf".toList⟩

/-- The sum of the outcome counters a fallback record can touch. -/
def statsSum (st : ImportStats) : Nat := st.created + st.updated + st.errors

/-- Value of the first number in the text: the regex group anchored at the
first digit. -/
def firstNumberVal (l : PyStr) : ℚ := numberAt (l.dropWhile (fun c => !c.isDigit))

/-! ## Character-level lemmas -/

theorem char_toNat_ofNat {n : Nat} (h : n < 55296) : (Char.ofNat n).toNat = n := by
  rw [Char.ofNat, dif_pos (Or.inl h)]
  rfl

theorem char_eq_of_toNat {a b : Char} (h : a.toNat = b.toNat) : a = b :=
  Char.ext (UInt32.ext h)

theorem char_eq_iff_toNat {a b : Char} : a = b ↔ a.toNat = b.toNat :=
  ⟨fun h => h ▸ rfl, char_eq_of_toNat⟩

theorem toNat_toUpper (c : Char) :
    (Char.toUpper c).toNat = if 97 ≤ c.toNat ∧ c.toNat ≤ 122 then c.toNat - 32 else c.toNat := by
  simp only [Char.toUpper, ge_iff_le]
  by_cases h : 97 ≤ c.toNat ∧ c.toNat ≤ 122
  · rw [if_pos h, if_pos h]
    exact char_toNat_ofNat (by omega)
  · rw [if_neg h, if_neg h]

theorem toNat_toLower (c : Char) :
    (Char.toLower c).toNat = if 65 ≤ c.toNat ∧ c.toNat ≤ 90 then c.toNat + 32 else c.toNat := by
  simp only [Char.toLower, ge_iff_le]
  by_cases h : 65 ≤ c.toNat ∧ c.toNat ≤ 90
  · rw [if_pos h, if_pos h]
    exact char_toNat_ofNat (by omega)
  · rw [if_neg h, if_neg h]

theorem isDigit_iff {c : Char} : c.isDigit = true ↔ 48 ≤ c.toNat ∧ c.toNat ≤ 57 := by
  simp only [Char.isDigit, Bool.and_eq_true, decide_eq_true_eq, ge_iff_le]
  exact Iff.rfl

theorem isAlpha_iff {c : Char} :
    c.isAlpha = true ↔ (65 ≤ c.toNat ∧ c.toNat ≤ 90) ∨ (97 ≤ c.toNat ∧ c.toNat ≤ 122) := by
  simp only [Char.isAlpha, Char.isUpper, Char.isLower, Bool.or_eq_true, Bool.and_eq_true,
    decide_eq_true_eq, ge_iff_le]
  exact Iff.rfl

theorem pyWS_iff {c : Char} :
    pyWS c = true ↔
      c.toNat = 32 ∨ c.toNat = 9 ∨ c.toNat = 10 ∨ c.toNat = 13 ∨ c.toNat = 11 ∨ c.toNat = 12 := by
  simp only [pyWS, Bool.or_eq_true, decide_eq_true_eq]
  rw [char_eq_iff_toNat, char_eq_iff_toNat, char_eq_iff_toNat, char_eq_iff_toNat,
    char_eq_iff_toNat, char_eq_iff_toNat,
    show (' '.toNat) = 32 from rfl, show ('\t'.toNat) = 9 from rfl,
    show ('\n'.toNat) = 10 from rfl, show ('\r'.toNat) = 13 from rfl,
    show ('\x0b'.toNat) = 11 from rfl, show ('\x0c'.toNat) = 12 from rfl]
  tauto

theorem btSep_iff {c : Char} :
    btSep c = true ↔ c.toNat = 44 ∨ c.toNat = 59 ∨ c.toNat = 47 ∨ c.toNat = 124 := by
  simp only [btSep, Bool.or_eq_true, decide_eq_true_eq]
  rw [char_eq_iff_toNat, char_eq_iff_toNat, char_eq_iff_toNat, char_eq_iff_toNat,
    show (','.toNat) = 44 from rfl, show (';'.toNat) = 59 from rfl,
    show ('/'.toNat) = 47 from rfl, show ('|'.toNat) = 124 from rfl]
  tauto

theorem toUpper_toUpper (c : Char) : Char.toUpper (Char.toUpper c) = Char.toUpper c := by
  apply char_eq_of_toNat
  by_cases h : 97 ≤ c.toNat ∧ c.toNat ≤ 122
  · have h1 : (Char.toUpper c).toNat = c.toNat - 32 := by rw [toNat_toUpper, if_pos h]
    rw [toNat_toUpper (Char.toUpper c), h1, if_neg (by omega)]
  · have h1 : (Char.toUpper c).toNat = c.toNat := by rw [toNat_toUpper, if_neg h]
    rw [toNat_toUpper (Char.toUpper c), h1, if_neg h]

theorem toLower_toLower (c : Char) : Char.toLower (Char.toLower c) = Char.toLower c := by
  apply char_eq_of_toNat
  by_cases h : 65 ≤ c.toNat ∧ c.toNat ≤ 90
  · have h1 : (Char.toLower c).toNat = c.toNat + 32 := by rw [toNat_toLower, if_pos h]
    rw [toNat_toLower (Char.toLower c), h1, if_neg (by omega)]
  · have h1 : (Char.toLower c).toNat = c.toNat := by rw [toNat_toLower, if_neg h]
    rw [toNat_toLower (Char.toLower c), h1, if_neg h]

theorem isAlpha_toUpper (c : Char) : (Char.toUpper c).isAlpha = c.isAlpha := by
  rw [Bool.eq_iff_iff, isAlpha_iff, isAlpha_iff, toNat_toUpper]
  split <;> omega

theorem isAlpha_toLower (c : Char) : (Char.toLower c).isAlpha = c.isAlpha := by
  rw [Bool.eq_iff_iff, isAlpha_iff, isAlpha_iff, toNat_toLower]
  split <;> omega

theorem pyWS_toUpper (c : Char) : pyWS (Char.toUpper c) = pyWS c := by
  rw [Bool.eq_iff_iff, pyWS_iff, pyWS_iff, toNat_toUpper]
  split <;> omega

theorem pyWS_toLower (c : Char) : pyWS (Char.toLower c) = pyWS c := by
  rw [Bool.eq_iff_iff, pyWS_iff, pyWS_iff, toNat_toLower]
  split <;> omega

theorem btSep_of_isAlpha {c : Char} (h : c.isAlpha = true) : btSep c = false := by
  rw [isAlpha_iff] at h
  rw [← Bool.not_eq_true, btSep_iff]
  omega

theorem isDigit_toUpper (c : Char) : (Char.toUpper c).isDigit = c.isDigit := by
  rw [Bool.eq_iff_iff, isDigit_iff, isDigit_iff, toNat_toUpper]
  split <;> omega

/-- A character whose `toUpper` image is `d` is `d` itself or its lower-case
partner. -/
theorem toNat_of_toUpper_eq {c d : Char} (h : Char.toUpper c = d) :
    c.toNat = d.toNat ∨ c.toNat = d.toNat + 32 := by
  have h1 := toNat_toUpper c
  rw [h] at h1
  split at h1 <;> omega

/-! ## `pyStrip` lemmas -/

theorem mem_of_mem_rdropWhile {p : Char → Bool} {l : PyStr} {c : Char}
    (h : c ∈ l.rdropWhile p) : c ∈ l := by
  unfold List.rdropWhile at h
  rw [List.mem_reverse] at h
  have := (List.dropWhile_sublist p).subset h
  rwa [List.mem_reverse] at this

theorem mem_of_mem_pyStrip {l : PyStr} {c : Char} (h : c ∈ pyStrip l) : c ∈ l :=
  (List.dropWhile_sublist pyWS).subset (mem_of_mem_rdropWhile h)

theorem pyStrip_eq_nil_iff {l : PyStr} : pyStrip l = [] ↔ ∀ c ∈ l, pyWS c = true := by
  unfold pyStrip
  rw [List.rdropWhile_eq_nil_iff]
  constructor
  · intro h c hc
    rw [← List.takeWhile_append_dropWhile (p := pyWS) (l := l)] at hc
    rcases List.mem_append.mp hc with h1 | h1
    · exact List.mem_takeWhile_imp h1
    · exact h c h1
  · intro h c hc
    exact h c ((List.dropWhile_sublist pyWS).subset hc)

theorem pyStrip_ne_nil {l : PyStr} {c : Char} (hc : c ∈ l) (hw : pyWS c = false) :
    pyStrip l ≠ [] := by
  intro h
  rw [pyStrip_eq_nil_iff] at h
  rw [h c hc] at hw
  exact Bool.true_eq_false.mp hw

theorem dropWhile_eq_self_of_head? {p : Char → Bool} {l : PyStr}
    (h : ∀ c, l.head? = some c → p c = false) : List.dropWhile p l = l := by
  cases l with
  | nil => rfl
  | cons c rest =>
    rw [List.dropWhile_cons, if_neg]
    simp [h c rfl]

theorem head?_false_of_dropWhile_self {p : Char → Bool} {l : PyStr}
    (h : List.dropWhile p l = l) : ∀ c, l.head? = some c → p c = false := by
  intro c hc
  cases l with
  | nil => simp at hc
  | cons d rest =>
    rw [List.head?_cons, Option.some_inj] at hc
    rw [List.dropWhile_cons] at h
    by_cases hp : p d = true
    · rw [if_pos hp] at h
      have hlen := (List.dropWhile_sublist p (l := rest)).length_le
      rw [h, List.length_cons] at hlen
      omega
    · rw [← hc]
      simpa using hp

theorem rdropWhile_eq_self_of_getLast? {p : Char → Bool} {l : PyStr}
    (h : ∀ c, l.getLast? = some c → p c = false) : l.rdropWhile p = l := by
  unfold List.rdropWhile
  rw [List.reverse_eq_iff]
  exact dropWhile_eq_self_of_head? (fun c hc => h c (by rwa [List.head?_reverse] at hc))

theorem getLast?_false_of_rdropWhile_self {p : Char → Bool} {l : PyStr}
    (h : l.rdropWhile p = l) : ∀ c, l.getLast? = some c → p c = false := by
  intro c hc
  unfold List.rdropWhile at h
  rw [List.reverse_eq_iff] at h
  exact head?_false_of_dropWhile_self h c (by rwa [List.head?_reverse])

theorem components_of_pyStrip_self {l : PyStr} (h : pyStrip l = l) :
    List.dropWhile pyWS l = l ∧ l.rdropWhile pyWS = l := by
  unfold pyStrip at h
  have h1 : (List.dropWhile pyWS l).length ≤ l.length :=
    (List.dropWhile_sublist pyWS).length_le
  have h2 : ((List.dropWhile pyWS l).rdropWhile pyWS).length ≤
      (List.dropWhile pyWS l).length := by
    unfold List.rdropWhile
    simpa using (List.dropWhile_sublist pyWS (l := (List.dropWhile pyWS l).reverse)).length_le
  have hlen : (List.dropWhile pyWS l).length = l.length := by
    have := congrArg List.length h
    omega
  have hd : List.dropWhile pyWS l = l := (List.dropWhile_sublist pyWS).eq_of_length hlen
  rw [hd] at h
  exact ⟨hd, h⟩

theorem pyStrip_self_of {l : PyStr} (h1 : List.dropWhile pyWS l = l)
    (h2 : l.rdropWhile pyWS = l) : pyStrip l = l := by
  unfold pyStrip
  rw [h1, h2]

theorem pyStrip_idem (l : PyStr) : pyStrip (pyStrip l) = pyStrip l := by
  have h2 : (pyStrip l).rdropWhile pyWS = pyStrip l := List.rdropWhile_idempotent _ _
  have h1 : List.dropWhile pyWS (pyStrip l) = pyStrip l := by
    apply dropWhile_eq_self_of_head?
    intro c hc
    apply head?_false_of_dropWhile_self (l := List.dropWhile pyWS l)
      (List.dropWhile_idempotent pyWS l) c
    obtain ⟨t, ht⟩ := List.rdropWhile_prefix pyWS (List.dropWhile pyWS l)
    cases hy : (List.dropWhile pyWS l).rdropWhile pyWS with
    | nil =>
      unfold pyStrip at hc
      rw [hy] at hc
      simp at hc
    | cons d ds =>
      unfold pyStrip at hc
      rw [hy] at hc
      rw [List.head?_cons, Option.some_inj] at hc
      rw [← ht, hy, List.cons_append, List.head?_cons, hc]
  exact pyStrip_self_of h1 h2

/-! ## `pySplitP`, `joinComma` and `pyTitle` lemmas -/

theorem pySplitP_ne_nil (p : Char → Bool) (l : PyStr) : pySplitP p l ≠ [] := by
  cases l with
  | nil => simp [pySplitP]
  | cons c rest =>
    unfold pySplitP
    cases h : pySplitP p rest with
    | nil => simp
    | cons w ws =>
      dsimp only
      split <;> simp

theorem sep_free_of_mem_pySplitP {p : Char → Bool} :
    ∀ {l t : PyStr}, t ∈ pySplitP p l → ∀ c ∈ t, p c = false := by
  intro l
  induction l with
  | nil =>
    intro t ht c hc
    simp [pySplitP] at ht
    subst ht
    simp at hc
  | cons d rest ih =>
    intro t ht c hc
    cases hsp : pySplitP p rest with
    | nil => exact absurd hsp (pySplitP_ne_nil p rest)
    | cons w ws =>
      unfold pySplitP at ht
      rw [hsp] at ht
      dsimp only at ht
      by_cases hd : p d = true
      · rw [if_pos hd] at ht
        rcases List.mem_cons.mp ht with rfl | h2
        · simp at hc
        · exact ih (by rw [hsp]; exact h2) c hc
      · rw [if_neg hd] at ht
        rcases List.mem_cons.mp ht with rfl | h2
        · rcases List.mem_cons.mp hc with rfl | h3
          · simpa using hd
          · exact ih (by rw [hsp]; exact List.mem_cons_self w ws) c h3
        · exact ih (by rw [hsp]; exact List.mem_cons_of_mem w h2) c hc

theorem pySplitP_sepFree_append {p : Char → Bool} :
    ∀ {t : PyStr}, (∀ c ∈ t, p c = false) → ∀ l : PyStr,
      pySplitP p (t ++ l) = List.modifyHead (t ++ ·) (pySplitP p l) := by
  intro t
  induction t with
  | nil =>
    intro _ l
    rw [List.nil_append]
    cases pySplitP p l <;> simp
  | cons c t' ih =>
    intro hf l
    have hc : p c = false := hf c (List.mem_cons_self c t')
    have ht' := ih (fun d hd => hf d (List.mem_cons_of_mem c hd)) l
    cases hw : pySplitP p l with
    | nil => exact absurd hw (pySplitP_ne_nil p l)
    | cons w ws =>
      rw [hw] at ht'
      dsimp only [List.modifyHead] at ht'
      rw [List.cons_append]
      unfold pySplitP
      rw [ht']
      dsimp only
      rw [if_neg (by simp [hc])]
      simp

theorem pySplitP_sep_cons {p : Char → Bool} {s : Char} (hs : p s = true) (l : PyStr) :
    pySplitP p (s :: l) = [] :: pySplitP p l := by
  cases hw : pySplitP p l with
  | nil => exact absurd hw (pySplitP_ne_nil p l)
  | cons w ws =>
    unfold pySplitP
    rw [hw]
    dsimp only
    rw [if_pos hs]

theorem pySplitP_joinComma {p : Char → Bool} (hp : p ',' = true) :
    ∀ {ts : List PyStr}, ts ≠ [] → (∀ t ∈ ts, ∀ c ∈ t, p c = false) →
      pySplitP p (joinComma ts) = ts := by
  intro ts
  induction ts with
  | nil => intro h; exact absurd rfl h
  | cons t ts' ih =>
    intro _ hf
    cases ts' with
    | nil =>
      show pySplitP p (joinComma [t]) = [t]
      have : joinComma [t] = t := rfl
      rw [this, ← List.append_nil t,
        pySplitP_sepFree_append (fun c hc => hf t (List.mem_cons_self t []) c
          (by simpa using hc))]
      simp [pySplitP]
    | cons t2 ts2 =>
      show pySplitP p (t ++ ',' :: joinComma (t2 :: ts2)) = t :: t2 :: ts2
      rw [pySplitP_sepFree_append (hf t (List.mem_cons_self t (t2 :: ts2))),
        pySplitP_sep_cons hp,
        ih (by simp) (fun u hu => hf u (List.mem_cons_of_mem t hu))]
      simp

theorem pyTitleGo_cons (b : Bool) (c : Char) (rest : PyStr) :
    pyTitleGo b (c :: rest) =
      if c.isAlpha then (if b then c.toLower else c.toUpper) :: pyTitleGo true rest
      else c :: pyTitleGo false rest := rfl

theorem pyTitleGo_ne_nil {b : Bool} {l : PyStr} (h : l ≠ []) : pyTitleGo b l ≠ [] := by
  cases l with
  | nil => exact absurd rfl h
  | cons c rest =>
    rw [pyTitleGo_cons]
    split <;> simp

theorem pyTitleGo_head?_pyWS (b : Bool) (l : PyStr) :
    (pyTitleGo b l).head?.map pyWS = l.head?.map pyWS := by
  cases l with
  | nil => rfl
  | cons c rest =>
    rw [pyTitleGo_cons]
    by_cases hca : c.isAlpha = true
    · rw [if_pos hca]
      cases b <;> simp [pyWS_toLower, pyWS_toUpper]
    · rw [if_neg hca]
      simp

theorem pyTitleGo_getLast?_pyWS (b : Bool) (l : PyStr) :
    (pyTitleGo b l).getLast?.map pyWS = l.getLast?.map pyWS := by
  induction l generalizing b with
  | nil => rfl
  | cons c rest ih =>
    cases rest with
    | nil =>
      rw [pyTitleGo_cons]
      by_cases hca : c.isAlpha = true
      · rw [if_pos hca]
        cases b <;> simp [pyWS_toLower, pyWS_toUpper, pyTitleGo]
      · rw [if_neg hca]
        simp [pyTitleGo]
    | cons c2 rest2 =>
      rw [pyTitleGo_cons]
      by_cases hca : c.isAlpha = true
      · rw [if_pos hca]
        obtain ⟨d, ds, hd⟩ := List.exists_cons_of_ne_nil
          (pyTitleGo_ne_nil (b := true) (List.cons_ne_nil c2 rest2))
        rw [hd, List.getLast?_cons_cons, ← hd, ih true, List.getLast?_cons_cons]
      · rw [if_neg hca]
        obtain ⟨d, ds, hd⟩ := List.exists_cons_of_ne_nil
          (pyTitleGo_ne_nil (b := false) (List.cons_ne_nil c2 rest2))
        rw [hd, List.getLast?_cons_cons, ← hd, ih false, List.getLast?_cons_cons]

theorem pyStrip_pyTitleGo_self {b : Bool} {l : PyStr} (h : pyStrip l = l) :
    pyStrip (pyTitleGo b l) = pyTitleGo b l := by
  obtain ⟨h1, h2⟩ := components_of_pyStrip_self h
  apply pyStrip_self_of
  · apply dropWhile_eq_self_of_head?
    intro c hc
    have hmap := pyTitleGo_head?_pyWS b l
    rw [hc] at hmap
    cases hl : l.head? with
    | none => rw [hl] at hmap; simp at hmap
    | some d =>
      rw [hl] at hmap
      simp at hmap
      rw [hmap]
      exact head?_false_of_dropWhile_self h1 d hl
  · apply rdropWhile_eq_self_of_getLast?
    intro c hc
    have hmap := pyTitleGo_getLast?_pyWS b l
    rw [hc] at hmap
    cases hl : l.getLast? with
    | none => rw [hl] at hmap; simp at hmap
    | some d =>
      rw [hl] at hmap
      simp at hmap
      rw [hmap]
      exact getLast?_false_of_rdropWhile_self h2 d hl

theorem pyTitleGo_idem (b : Bool) (l : PyStr) : pyTitleGo b (pyTitleGo b l) = pyTitleGo b l := by
  induction l generalizing b with
  | nil => rfl
  | cons c rest ih =>
    by_cases hca : c.isAlpha = true
    · cases b with
      | false =>
        rw [pyTitleGo_cons, if_pos hca, if_neg Bool.false_ne_true, pyTitleGo_cons,
          if_pos (show (Char.toUpper c).isAlpha = true by rw [isAlpha_toUpper]; exact hca),
          if_neg Bool.false_ne_true, toUpper_toUpper, ih true]
      | true =>
        rw [pyTitleGo_cons, if_pos hca, if_pos rfl, pyTitleGo_cons,
          if_pos (show (Char.toLower c).isAlpha = true by rw [isAlpha_toLower]; exact hca),
          if_pos rfl, toLower_toLower, ih true]
    · rw [pyTitleGo_cons, if_neg hca, pyTitleGo_cons, if_neg hca, ih false]

theorem pyTitle_idem (l : PyStr) : pyTitle (pyTitle l) = pyTitle l := pyTitleGo_idem false l

theorem pyStrip_pyTitle_self {l : PyStr} (h : pyStrip l = l) :
    pyStrip (pyTitle l) = pyTitle l :=
  pyStrip_pyTitleGo_self h

theorem sep_free_pyTitleGo {p : Char → Bool} (halpha : ∀ c, c.isAlpha = true → p c = false) :
    ∀ {l : PyStr}, (∀ c ∈ l, p c = false) → ∀ b, ∀ c ∈ pyTitleGo b l, p c = false := by
  intro l
  induction l with
  | nil => intro _ b c hc; simp [pyTitleGo] at hc
  | cons d rest ih =>
    intro h b c hc
    rw [pyTitleGo_cons] at hc
    by_cases hda : d.isAlpha = true
    · rw [if_pos hda] at hc
      rcases List.mem_cons.mp hc with rfl | h2
      · apply halpha
        cases b with
        | false => simp only [Bool.false_eq_true, if_false]; rw [isAlpha_toUpper]; exact hda
        | true => simp only [if_true]; rw [isAlpha_toLower]; exact hda
      · exact ih (fun e he => h e (List.mem_cons_of_mem d he)) true c h2
    · rw [if_neg hda] at hc
      rcases List.mem_cons.mp hc with rfl | h2
      · exact h c (List.mem_cons_self c rest)
      · exact ih (fun e he => h e (List.mem_cons_of_mem d he)) false c h2


/-! ## Facts about the building-type parsers (claim C9) -/

theorem mem_joinComma_head {c : Char} {t : PyStr} (ts : List PyStr) (h : c ∈ t) :
    c ∈ joinComma (t :: ts) := by
  cases ts with
  | nil => exact h
  | cons t2 ts2 =>
    show c ∈ t ++ ',' :: joinComma (t2 :: ts2)
    exact List.mem_append_left _ h

theorem cleanBtStep_mem {acc : List PyStr} {t x : PyStr} (h : x ∈ cleanBtStep acc t) :
    x ∈ acc ∨ (x = pyTitle (pyStrip t) ∧ x ≠ []) := by
  simp only [cleanBtStep] at h
  split at h
  · next hcond =>
    rcases List.mem_append.mp h with h1 | h1
    · exact Or.inl h1
    · refine Or.inr ⟨by simpa using h1, ?_⟩
      have h2 := (Bool.and_eq_true _ _).mp hcond |>.1
      simp only [List.mem_singleton] at h1
      subst h1
      simpa using h2
  · exact Or.inl h

theorem foldl_cleanBtStep_mem :
    ∀ {pieces : List PyStr} {acc : List PyStr} {x : PyStr},
      x ∈ pieces.foldl cleanBtStep acc →
      x ∈ acc ∨ ∃ t ∈ pieces, x = pyTitle (pyStrip t) ∧ x ≠ [] := by
  intro pieces
  induction pieces with
  | nil => intro acc x h; exact Or.inl h
  | cons t rest ih =>
    intro acc x h
    rcases ih (by simpa using h) with h1 | ⟨u, hu, hx⟩
    · rcases cleanBtStep_mem h1 with h2 | h2
      · exact Or.inl h2
      · exact Or.inr ⟨t, List.mem_cons_self t rest, h2⟩
    · exact Or.inr ⟨u, List.mem_cons_of_mem t hu, hx⟩

theorem foldl_cleanBtStep_nodup :
    ∀ {pieces acc : List PyStr}, acc.Nodup → (pieces.foldl cleanBtStep acc).Nodup := by
  intro pieces
  induction pieces with
  | nil => intro acc h; exact h
  | cons t rest ih =>
    intro acc h
    apply ih
    simp only [cleanBtStep]
    split
    · next hcond =>
      rw [List.nodup_append]
      refine ⟨h, List.nodup_singleton _, ?_⟩
      intro a ha hamem
      rw [List.mem_singleton] at hamem
      subst hamem
      have h2 := (Bool.and_eq_true _ _).mp hcond |>.2
      simp only [List.contains, List.elem_eq_mem, Bool.not_eq_true'] at h2
      rw [decide_eq_false_iff_not] at h2
      exact h2 ha
    · exact h

theorem foldl_cleanBtStep_self :
    ∀ {bts acc : List PyStr}, (∀ bt ∈ bts, bt ≠ []) →
      (∀ bt ∈ bts, pyTitle (pyStrip bt) = bt) → (acc ++ bts).Nodup →
      bts.foldl cleanBtStep acc = acc ++ bts := by
  intro bts
  induction bts with
  | nil => intro acc _ _ _; simp
  | cons bt rest ih =>
    intro acc hne hfix hnd
    have hbt : pyTitle (pyStrip bt) = bt := hfix bt (List.mem_cons_self bt rest)
    have hbtne : bt ≠ [] := hne bt (List.mem_cons_self bt rest)
    have hnotmem : bt ∉ acc := by
      rw [List.nodup_append] at hnd
      intro hmem
      exact hnd.2.2 hmem (List.mem_cons_self bt rest)
    have hstep : cleanBtStep acc bt = acc ++ [bt] := by
      simp only [cleanBtStep]
      rw [hbt, if_pos]
      rw [Bool.and_eq_true]
      constructor
      · simpa using hbtne
      · simp [List.contains, List.elem_eq_mem, hnotmem]
    show (bt :: rest).foldl cleanBtStep acc = acc ++ bt :: rest
    rw [List.foldl_cons, hstep, ih (fun u hu => hne u (List.mem_cons_of_mem bt hu))
      (fun u hu => hfix u (List.mem_cons_of_mem bt hu))
      (by rwa [List.append_assoc, List.singleton_append]),
      List.append_assoc, List.singleton_append]

theorem clean_building_types_facts {s : PyStr} {bt : PyStr}
    (h : bt ∈ clean_building_types s) :
    bt ≠ [] ∧ pyTitle (pyStrip bt) = bt ∧ ∀ c ∈ bt, btSep c = false := by
  unfold clean_building_types at h
  split at h
  · simp at h
  · rcases foldl_cleanBtStep_mem h with h1 | ⟨t, ht, hx, hne⟩
    · simp at h1
    · subst hx
      refine ⟨hne, ?_, ?_⟩
      · rw [pyStrip_pyTitle_self (pyStrip_idem t), pyTitle_idem]
      · apply sep_free_pyTitleGo (fun c hc => btSep_of_isAlpha hc)
        intro c hc
        have hcs : c ∈ t := mem_of_mem_pyStrip hc
        exact sep_free_of_mem_pySplitP ht c hcs

theorem clean_building_types_nodup (s : PyStr) : (clean_building_types s).Nodup := by
  unfold clean_building_types
  split
  · exact List.nodup_nil
  · exact foldl_cleanBtStep_nodup List.nodup_nil

theorem parse_building_types_facts {s : PyStr} {t : PyStr}
    (hg : (s.isEmpty || pyStrip s = []) = false)
    (h : t ∈ parse_building_types s) :
    t ≠ [] ∧ pyStrip t = t ∧ ∀ c ∈ t, (c = ',' : Bool) = false := by
  unfold parse_building_types at h
  rw [if_neg (by simp [hg])] at h
  have h1 := List.mem_filter.mp h
  obtain ⟨u, hu, hut⟩ := List.mem_map.mp h1.1
  refine ⟨by simpa using h1.2, ?_, ?_⟩
  · rw [← hut]
    exact pyStrip_idem u
  · intro c hc
    rw [← hut] at hc
    exact sep_free_of_mem_pySplitP hu c (mem_of_mem_pyStrip hc)

/-- A nonempty stripped string has a non-whitespace character, so a join
headed by it does not strip to empty. -/
theorem joined_guard_false {t : PyStr} (ts : List PyStr) (hne : t ≠ [])
    (hst : pyStrip t = t) :
    ((joinComma (t :: ts)).isEmpty || pyStrip (joinComma (t :: ts)) = []) = false := by
  obtain ⟨c, hc, hw⟩ : ∃ c ∈ t, pyWS c = false := by
    by_contra hall
    push_neg at hall
    apply hne
    rw [← hst, pyStrip_eq_nil_iff]
    intro c hc
    have := hall c hc
    simpa using this
  have hcj : c ∈ joinComma (t :: ts) := mem_joinComma_head ts hc
  rw [Bool.or_eq_false_iff]
  constructor
  · rw [List.isEmpty_eq_false]
    exact List.ne_nil_of_mem hcj
  · simp only [decide_eq_false_iff_not]
    exact pyStrip_ne_nil hcj hw


/-- C9, counterexample: the lenient parser `parse_building_types` is not
idempotent.  `", ,"` is not blank, so it parses to the empty list; re-joining
gives `""`, which is blank and re-parses to `['Unknown']`. -/
theorem building_types_idem_cx :
    parse_building_types (joinComma (parse_building_types (", ,".toList))) ≠
      parse_building_types (", ,".toList) := by decide

/-- C9 as amended: `clean_building_types` (the strict variant) is idempotent
on every input; `parse_building_types` (the lenient variant) is idempotent
whenever its first parse is nonempty — that is, except on inputs that are
nonblank but consist only of commas and whitespace, where the first parse is
`[]` and the reparse of the empty join is `['Unknown']`. -/
theorem building_types_idempotent (s : PyStr) :
    clean_building_types (joinComma (clean_building_types s)) = clean_building_types s ∧
    (parse_building_types s ≠ [] →
      parse_building_types (joinComma (parse_building_types s)) = parse_building_types s) := by
  constructor
  · by_cases hbts : clean_building_types s = []
    · rw [hbts]
      rfl
    · obtain ⟨bt0, bts', hbts'⟩ := List.exists_cons_of_ne_nil hbts
      have hnd := clean_building_types_nodup s
      rw [hbts'] at hnd
      have hbt0 : bt0 ∈ clean_building_types s := by
        rw [hbts']
        exact List.mem_cons_self _ _
      obtain ⟨h0ne, h0fix, _⟩ := clean_building_types_facts hbt0
      have h0strip : pyStrip bt0 = bt0 := by
        have hh := pyStrip_pyTitle_self (pyStrip_idem bt0)
        rw [h0fix] at hh
        exact hh
      have hguard := joined_guard_false bts' h0ne h0strip
      have hje : (joinComma (bt0 :: bts')).isEmpty = false :=
        (Bool.or_eq_false_iff.mp hguard).1
      rw [hbts']
      unfold clean_building_types
      rw [if_neg (by simp [hje]),
        pySplitP_joinComma (by decide) (List.cons_ne_nil bt0 bts')
          (fun t ht => (clean_building_types_facts (by rw [hbts']; exact ht)).2.2),
        foldl_cleanBtStep_self
          (fun bt hbt => (clean_building_types_facts (s := s) (by rw [hbts']; exact hbt)).1)
          (fun bt hbt => (clean_building_types_facts (s := s) (by rw [hbts']; exact hbt)).2.1)
          (by simpa using hnd),
        List.nil_append]
  · intro hne
    by_cases hg : (s.isEmpty || pyStrip s = []) = true
    · have hv : parse_building_types s = ["Unknown".toList] := by
        unfold parse_building_types
        rw [if_pos hg]
      rw [hv]
      decide
    · have hgf : (s.isEmpty || pyStrip s = []) = false := by
        simpa using hg
      obtain ⟨t0, ts', hts⟩ := List.exists_cons_of_ne_nil hne
      have ht0 : t0 ∈ parse_building_types s := by
        rw [hts]
        exact List.mem_cons_self _ _
      obtain ⟨h0ne, h0st, _⟩ := parse_building_types_facts hgf ht0
      have hguard := joined_guard_false ts' h0ne h0st
      rw [hts]
      unfold parse_building_types pySplit
      rw [if_neg (by simp [hguard]),
        pySplitP_joinComma (by decide) (List.cons_ne_nil t0 ts')
          (fun t ht => (parse_building_types_facts hgf (by rw [hts]; exact ht)).2.2),
        List.map_congr_left
          (fun t ht => (parse_building_types_facts hgf (by rw [hts]; exact ht)).2.1),
        List.map_id',
        List.filter_eq_self.mpr
          (fun t ht => by
            simpa using (parse_building_types_facts hgf (by rw [hts]; exact ht)).1)]

/-- C9 witness: idempotence of the lenient parser at a concrete input. -/
theorem building_types_idempotent_witness :
    parse_building_types (joinComma (parse_building_types ("Office, Retail".toList))) =
      parse_building_types ("Office, Retail".toList) :=
  (building_types_idempotent ("Office, Retail".toList)).2 (by decide)


/-! ## Claim C4: coordinate-pair invariant -/

/-- C4, counterexample: the claimed invariant fails.  With only latitude
present — and out of range — the pipeline's coordinate step leaves the
one-sided pair untouched (`import_cre_data.py` validates only when both are
present), and `DataValidator.validate_coordinates` accepts the record, so a
produced record can carry one coordinate without the other. -/
theorem coordinate_pair_cx :
    coord_nulling (some 95) none = (some 95, none) ∧
    validate_coordinates_opt (some 95) none = true := by decide

/-- C4 as amended: when both coordinates are present the pair is either kept
with latitude in [-90, 90] and longitude in [-180, 180], or nulled out
entirely; when either coordinate is absent the (possibly one-sided,
unvalidated) pair is passed through unchanged. -/
theorem coordinate_pair_nulling (la ln : ℚ) (lat lng : Option ℚ) :
    ((coord_nulling (some la) (some ln) = (some la, some ln) ∧
        -90 ≤ la ∧ la ≤ 90 ∧ -180 ≤ ln ∧ ln ≤ 180) ∨
      coord_nulling (some la) (some ln) = (none, none)) ∧
    (lat = none ∨ lng = none → coord_nulling lat lng = (lat, lng)) := by
  constructor
  · by_cases h : validate_coordinates (some la) (some ln) = true
    · left
      refine ⟨by simp [coord_nulling, h], ?_⟩
      simp only [validate_coordinates, Bool.and_eq_true, decide_eq_true_eq] at h
      exact ⟨h.1.1.1, h.1.1.2, h.1.2, h.2⟩
    · right
      have h' : validate_coordinates (some la) (some ln) = false := by simpa using h
      simp [coord_nulling, h']
  · rintro (rfl | rfl)
    · simp [coord_nulling]
    · simp [coord_nulling]

/-- C4 witness: a one-sided pair passes through unchanged. -/
theorem coordinate_pair_nulling_witness :
    coord_nulling (some 95) none = (some 95, none) :=
  (coordinate_pair_nulling 0 0 (some 95) none).2 (Or.inr rfl)

/-! ## Claim C5: field mapper on ["Street Address", "Muni", "ST"] -/

/-- C5, counterexample: the claimed mapping does not arise.  Alias matching
is exact string equality on the lowered, stripped header, so
`"street address"` (space, not underscore) matches no `address` alias and
`"muni"` matches no `city` alias; only `state → "ST"` resolves (via the
alias `st`). -/
theorem field_mapper_cx :
    List.lookup "address".toList
        (map_csv_headers ["Street Address".toList, "Muni".toList, "ST".toList]) = none ∧
    List.lookup "city".toList
        (map_csv_headers ["Street Address".toList, "Muni".toList, "ST".toList]) = none ∧
    List.lookup "state".toList
        (map_csv_headers ["Street Address".toList, "Muni".toList, "ST".toList]) =
      some ("ST".toList) := by decide

/-- C5 as amended: for the headers `["Street Address", "Muni", "ST"]` the
mapper returns exactly the one-entry mapping `state → "ST"`. -/
theorem field_mapper_street_address_muni_st :
    map_csv_headers ["Street Address".toList, "Muni".toList, "ST".toList] =
      [("state".toList, "ST".toList)] := by decide

/-! ## Claim C7: cursor pagination -/

/-- C7: for every finite page sequence served by the endpoint — has-more true
on all but the last page and false on the last — `get_all_properties`
returns the concatenation of all pages' results in fetch order.  The
embedding is a total function, so termination on a finite page sequence
holds by construction. -/
theorem notion_pagination_complete {α : Type} (pages : List (NotionPage α))
    (h1 : ∀ p ∈ pages.dropLast, p.has_more = true)
    (h2 : ∀ p, pages.getLast? = some p → p.has_more = false) :
    get_all_properties pages = (pages.map NotionPage.results).flatten := by
  induction pages with
  | nil => rfl
  | cons p rest ih =>
    cases rest with
    | nil =>
      show p.results ++ (if p.has_more then get_all_properties [] else []) = _
      simp [get_all_properties]
    | cons q rest2 =>
      have hp : p.has_more = true := h1 p (by rw [List.dropLast_cons₂]; exact List.mem_cons_self _ _)
      show p.results ++ (if p.has_more then get_all_properties (q :: rest2) else []) = _
      rw [hp, if_pos rfl,
        ih (fun r hr => h1 r (by rw [List.dropLast_cons₂]; exact List.mem_cons_of_mem p hr))
          (fun r hr => h2 r (by rw [List.getLast?_cons_cons]; exact hr))]
      simp

/-- C7 witness: a two-page fetch. -/
theorem notion_pagination_complete_witness :
    get_all_properties
        [⟨[1, 2], true, some ("c".toList)⟩, (⟨[3], false, none⟩ : NotionPage Nat)] =
      [1, 2, 3] :=
  (notion_pagination_complete
      [⟨[1, 2], true, some ("c".toList)⟩, (⟨[3], false, none⟩ : NotionPage Nat)]
      (by decide) (by decide)).trans (by decide)

/-! ## Claims C1 and C2: the batch-fallback driver -/

/-- Each record handled by the fallback increments exactly one of the
`created`, `updated`, `errors` counters. -/
theorem handleRecord_one_counter (o : SbOracle) (st : RunState) (r : SbRecord) :
    (handleRecord o st r).stats = { st.stats with created := st.stats.created + 1 } ∨
    (handleRecord o st r).stats = { st.stats with updated := st.stats.updated + 1 } ∨
    (handleRecord o st r).stats = { st.stats with errors := st.stats.errors + 1 } := by
  simp only [handleRecord]
  split
  case isTrue => right; right; rfl
  case isFalse =>
    split
    next row heq =>
      split
      case isTrue => right; right; rfl
      case isFalse => right; left; rfl
    next heq =>
      split
      case isTrue => right; right; rfl
      case isFalse => left; rfl

theorem foldl_handleRecord_sum (o : SbOracle) :
    ∀ (batch : List SbRecord) (st : RunState),
      statsSum (batch.foldl (handleRecord o) st).stats = statsSum st.stats + batch.length := by
  intro batch
  induction batch with
  | nil => intro st; simp
  | cons r rest ih =>
    intro st
    rw [List.foldl_cons, ih, List.length_cons]
    rcases handleRecord_one_counter o st r with h | h | h <;>
      (rw [h]; simp only [statsSum]; omega)

/-- C1: when the batch-level insert of a batch fails, the driver falls back
to handling every record of the batch individually; each such record
increments exactly one of `created`, `updated`, `errors`, so the failed
batch's contribution to `created + updated + errors` is exactly its size. -/
theorem batch_fallback_accounting (o : SbOracle) (st : RunState) (batch : List SbRecord)
    (h : o.batchFail batch st.db = true) :
    (∀ (st' : RunState) (r : SbRecord),
        (handleRecord o st' r).stats = { st'.stats with created := st'.stats.created + 1 } ∨
        (handleRecord o st' r).stats = { st'.stats with updated := st'.stats.updated + 1 } ∨
        (handleRecord o st' r).stats = { st'.stats with errors := st'.stats.errors + 1 }) ∧
    processBatch o st batch =
      batch.foldl (handleRecord o) { st with trace := st.trace ++ [SbOp.insertBatch batch] } ∧
    statsSum (processBatch o st batch).stats = statsSum st.stats + batch.length := by
  have hpb : processBatch o st batch =
      batch.foldl (handleRecord o) { st with trace := st.trace ++ [SbOp.insertBatch batch] } := by
    simp only [processBatch]
    rw [if_pos h]
  refine ⟨fun st' r => handleRecord_one_counter o st' r, hpb, ?_⟩
  rw [hpb, foldl_handleRecord_sum]

/-- C1 witness: a failing batch of two records accounts for both. -/
theorem batch_fallback_accounting_witness :
    statsSum (processBatch batchFailOracle ⟨⟨[], 0⟩, initStats, []⟩
        [exRecordA, exRecordB]).stats = statsSum initStats + 2 :=
  (batch_fallback_accounting batchFailOracle ⟨⟨[], 0⟩, initStats, []⟩
    [exRecordA, exRecordB] rfl).2.2


/-- Fallback execution, miss case: no row matches the natural key, so the
record is inserted and `created` incremented. -/
theorem handleRecord_miss (o : SbOracle) (st : RunState) (r : SbRecord)
    (hsel : o.selectFail r st.db = false)
    (hmiss : sbSelectByKey st.db r.address r.city = [])
    (hins : o.insertFail r st.db = false) :
    (handleRecord o st r).db = sbInsert st.db r ∧
    (handleRecord o st r).stats = { st.stats with created := st.stats.created + 1 } := by
  simp only [handleRecord]
  rw [if_neg (by simp [hsel]), hmiss]
  simp only [List.head?_nil]
  rw [if_neg (by simp [hins])]
  exact ⟨rfl, rfl⟩

/-- Fallback execution, hit case: the first row matching the natural key is
updated and `updated` incremented. -/
theorem handleRecord_hit (o : SbOracle) (st : RunState) (r : SbRecord) (row : SbRow)
    (hsel : o.selectFail r st.db = false)
    (hhit : (sbSelectByKey st.db r.address r.city).head? = some row)
    (hupd : o.updateFail r st.db = false) :
    (handleRecord o st r).db = sbUpdate st.db row.id r ∧
    (handleRecord o st r).stats = { st.stats with updated := st.stats.updated + 1 } := by
  simp only [handleRecord]
  rw [if_neg (by simp [hsel]), hhit]
  simp only
  rw [if_neg (by simp [hupd])]
  exact ⟨rfl, rfl⟩

/-- C2, counterexample: on the happy path the claim fails.  Two valid records
with the same address and city but different rate_text are submitted in one
batch; the batch insert succeeds, so the driver never looks up the natural
key: both records are inserted — two creates and zero updates. -/
theorem upsert_second_record_cx :
    exRecordA.address = exRecordB.address ∧ exRecordA.city = exRecordB.city ∧
    exRecordA.rate_text ≠ exRecordB.rate_text ∧
    (import_to_supabase allOkOracle [exRecordA, exRecordB] 100 ⟨[], 0⟩).map
        (fun st => (st.stats.created, st.stats.updated)) = some (2, 0) := by decide

/-- C2 as amended: the address+city upsert happens on the per-record fallback
path.  When the batch-level insert fails, the per-record calls succeed, the
store has no row for the shared key, and stored ids are below the fresh-id
counter, then processing the two records yields one create (the first) and
one update (the second), no errors, and the store ends with exactly one row
for the key, holding the second record. -/
theorem upsert_second_record_updates (r1 r2 : SbRecord) (st : RunState)
    (haddr : r2.address = r1.address) (hcity : r2.city = r1.city)
    (hmiss : sbSelectByKey st.db r1.address r1.city = [])
    (hfresh : ∀ row ∈ st.db.rows, row.id ≠ st.db.nextId) :
    (processBatch batchFailOracle st [r1, r2]).stats.created = st.stats.created + 1 ∧
    (processBatch batchFailOracle st [r1, r2]).stats.updated = st.stats.updated + 1 ∧
    (processBatch batchFailOracle st [r1, r2]).stats.errors = st.stats.errors ∧
    (sbSelectByKey (processBatch batchFailOracle st [r1, r2]).db r1.address r1.city).map
      SbRow.record = [r2] := by
  have hb : processBatch batchFailOracle st [r1, r2] =
      handleRecord batchFailOracle
        (handleRecord batchFailOracle
          { st with trace := st.trace ++ [SbOp.insertBatch [r1, r2]] } r1) r2 := by
    rfl
  set st0 : RunState := { st with trace := st.trace ++ [SbOp.insertBatch [r1, r2]] } with hst0
  have hst0db : st0.db = st.db := rfl
  obtain ⟨hdb1, hstats1⟩ :=
    handleRecord_miss batchFailOracle st0 r1 rfl (by rw [hst0db]; exact hmiss) rfl
  set st1 : RunState := handleRecord batchFailOracle st0 r1 with hst1
  have hsel2 : sbSelectByKey st1.db r2.address r2.city =
      [⟨st.db.nextId, r1⟩] := by
    rw [hdb1]
    unfold sbSelectByKey sbInsert
    simp only
    rw [List.filter_append]
    have hold : st.db.rows.filter
        (fun row => row.record.address == r2.address && row.record.city == r2.city) = [] := by
      rw [haddr, hcity]
      unfold sbSelectByKey at hmiss
      exact hmiss
    rw [hold]
    simp [haddr, hcity]
  obtain ⟨hdb2, hstats2⟩ :=
    handleRecord_hit batchFailOracle st1 r2 ⟨st.db.nextId, r1⟩ rfl (by rw [hsel2]; rfl) rfl
  have hfinal : sbSelectByKey (handleRecord batchFailOracle st1 r2).db r1.address r1.city =
      [⟨st.db.nextId, r2⟩] := by
    rw [hdb2, hdb1]
    unfold sbSelectByKey sbUpdate sbInsert
    simp only
    rw [List.map_append, List.filter_append]
    have hmap : st.db.rows.map
        (fun row => if row.id = st.db.nextId then { row with record := r2 } else row) =
        st.db.rows := by
      rw [List.map_congr_left (fun row hrow => by rw [if_neg (hfresh row hrow)]), List.map_id']
    rw [hmap]
    have hold : st.db.rows.filter
        (fun row => row.record.address == r1.address && row.record.city == r1.city) = [] := by
      unfold sbSelectByKey at hmiss
      exact hmiss
    rw [hold]
    simp [haddr, hcity]
  rw [hb, hstats2, hstats1, hfinal]
  refine ⟨rfl, rfl, rfl, by simp⟩

/-- C2 witness: the fallback upsert at concrete records over an empty
store. -/
theorem upsert_second_record_updates_witness :
    (processBatch batchFailOracle ⟨⟨[], 0⟩, initStats, []⟩
        [exRecordA, exRecordB]).stats.created = initStats.created + 1 ∧
    (processBatch batchFailOracle ⟨⟨[], 0⟩, initStats, []⟩
        [exRecordA, exRecordB]).stats.updated = initStats.updated + 1 ∧
    (processBatch batchFailOracle ⟨⟨[], 0⟩, initStats, []⟩
        [exRecordA, exRecordB]).stats.errors = initStats.errors ∧
    (sbSelectByKey (processBatch batchFailOracle ⟨⟨[], 0⟩, initStats, []⟩
        [exRecordA, exRecordB]).db exRecordA.address exRecordA.city).map
      SbRow.record = [exRecordB] :=
  upsert_second_record_updates exRecordA exRecordB ⟨⟨[], 0⟩, initStats, []⟩
    rfl rfl rfl (by simp)


/-! ## Claim C8: dry run performs no writes -/

theorem validationFold_counts (fm : List (PyStr × PyStr)) :
    ∀ (i : Nat) (raw : List RawRecord),
      (validationFold fm i raw).2.1 + (validationFold fm i raw).2.2.1 = raw.length ∧
      (validationFold fm i raw).2.2.2.length = (validationFold fm i raw).2.2.1 := by
  intro i raw
  induction raw generalizing i with
  | nil => simp [validationFold]
  | cons r rest ih =>
    obtain ⟨h1, h2⟩ := ih (i + 1)
    simp only [validationFold]
    by_cases hv : (validate_record (transform_csv_record fm r)).1 = true
    · rw [if_pos hv]
      constructor
      · simp only [List.length_cons]
        omega
      · exact h2
    · rw [if_neg hv]
      constructor
      · simp only [List.length_cons]
        omega
      · simp only [List.length_cons]
        omega

/-- C8: with `dry_run = True`, `process_csv_file` reads, transforms and
validates every record and reports the counts and per-row validation
messages, but issues no remote call: the Supabase call trace is empty, both
store states are unchanged, and neither import statistic is produced. -/
theorem dry_run_no_writes (o : SbOracle) (nfail : TRecord → Bool) (hasNotion : Bool)
    (raw : List RawRecord) (fm : List (PyStr × PyStr)) (target : ImportTarget)
    (batch_size : Nat) (db : SbDb) (pages : List TRecord) :
    (process_csv_file o nfail hasNotion raw fm target batch_size true db pages).db = db ∧
    (process_csv_file o nfail hasNotion raw fm target batch_size true db pages).sbTrace = [] ∧
    (process_csv_file o nfail hasNotion raw fm target batch_size true db
        pages).notionPages = pages ∧
    (process_csv_file o nfail hasNotion raw fm target batch_size true db
        pages).results.supabase_stats = none ∧
    (process_csv_file o nfail hasNotion raw fm target batch_size true db
        pages).results.notion_stats = none ∧
    (process_csv_file o nfail hasNotion raw fm target batch_size true db
        pages).results.total_records = raw.length ∧
    (process_csv_file o nfail hasNotion raw fm target batch_size true db
        pages).results.valid_records +
      (process_csv_file o nfail hasNotion raw fm target batch_size true db
        pages).results.invalid_records = raw.length ∧
    (process_csv_file o nfail hasNotion raw fm target batch_size true db
        pages).results.errors.length =
      (process_csv_file o nfail hasNotion raw fm target batch_size true db
        pages).results.invalid_records := by
  obtain ⟨h1, h2⟩ := validationFold_counts fm 1 raw
  exact ⟨rfl, rfl, rfl, rfl, rfl, rfl, h1, h2⟩


/-! ## Claim C6: rate parser -/

theorem scanNumber_cons (c : Char) (rest : PyStr) :
    scanNumber (c :: rest) =
      if c.isDigit then some (numberAt (c :: rest)) else scanNumber rest := rfl

theorem pyWS_of_isDigit {c : Char} (h : c.isDigit = true) : pyWS c = false := by
  rw [isDigit_iff] at h
  rw [← Bool.not_eq_true, pyWS_iff]
  omega

theorem hasDigit_filter {p : Char → Bool} (hp : ∀ c, c.isDigit = true → p c = true)
    (l : PyStr) : hasDigit (l.filter p) = hasDigit l := by
  rw [Bool.eq_iff_iff]
  simp only [hasDigit, List.any_eq_true, List.mem_filter]
  constructor
  · rintro ⟨c, ⟨hc, _⟩, hd⟩
    exact ⟨c, hc, hd⟩
  · rintro ⟨c, hc, hd⟩
    exact ⟨c, ⟨hc, hp c hd⟩, hd⟩

theorem scanNumber_eq (l : PyStr) :
    scanNumber l = if hasDigit l = true then some (firstNumberVal l) else none := by
  induction l with
  | nil => simp [scanNumber, hasDigit]
  | cons c rest ih =>
    by_cases hc : c.isDigit = true
    · have hdw : (c :: rest).dropWhile (fun c => !c.isDigit) = c :: rest := by
        rw [List.dropWhile_cons, if_neg (by simp [hc])]
      have hh : hasDigit (c :: rest) = true := by
        simp only [hasDigit, List.any_eq_true]
        exact ⟨c, List.mem_cons_self c rest, hc⟩
      rw [scanNumber_cons, if_pos hc, if_pos hh]
      unfold firstNumberVal
      rw [hdw]
    · have hdw : (c :: rest).dropWhile (fun c => !c.isDigit) =
          rest.dropWhile (fun c => !c.isDigit) := by
        rw [List.dropWhile_cons, if_pos (by simp [hc])]
      have hh : hasDigit (c :: rest) = hasDigit rest := by
        rw [Bool.eq_iff_iff]
        simp only [hasDigit, List.any_eq_true]
        constructor
        · rintro ⟨d, hd, hdd⟩
          rcases List.mem_cons.mp hd with rfl | hd2
          · exact absurd hdd hc
          · exact ⟨d, hd2, hdd⟩
        · rintro ⟨d, hd, hdd⟩
          exact ⟨d, List.mem_cons_of_mem c hd, hdd⟩
      rw [scanNumber_cons, if_neg hc, ih, hh]
      unfold firstNumberVal
      rw [hdw]

theorem upper_ne_of_hasDigit {s t : PyStr} (h : hasDigit s = true)
    (ht : hasDigit t = false) : pyUpper s ≠ t := by
  intro he
  obtain ⟨c, hc, hcd⟩ := List.any_eq_true.mp h
  have hmem : Char.toUpper c ∈ pyUpper s := List.mem_map_of_mem _ hc
  rw [he] at hmem
  have hd : (Char.toUpper c).isDigit = true := by rw [isDigit_toUpper]; exact hcd
  have hcontra : hasDigit t = true := List.any_eq_true.mpr ⟨Char.toUpper c, hmem, hd⟩
  rw [ht] at hcontra
  exact Bool.false_ne_true hcontra

theorem sqftGuard_false_of_hasDigit {s : PyStr} (h : hasDigit s = true) :
    sqftGuard s = false := by
  obtain ⟨c, hc, hcd⟩ := List.any_eq_true.mp h
  unfold sqftGuard
  rw [Bool.or_eq_false_iff, Bool.or_eq_false_iff]
  refine ⟨⟨?_, ?_⟩, ?_⟩
  · rw [List.isEmpty_eq_false]
    exact List.ne_nil_of_mem hc
  · rw [decide_eq_false_iff_not]
    exact upper_ne_of_hasDigit h (by decide)
  · rw [decide_eq_false_iff_not]
    exact pyStrip_ne_nil hc (pyWS_of_isDigit hcd)

theorem sqftGuardSync_false_of_hasDigit {s : PyStr} (h : hasDigit s = true) :
    sqftGuardSync s = false := by
  obtain ⟨c, hc, hcd⟩ := List.any_eq_true.mp h
  unfold sqftGuardSync
  rw [Bool.or_eq_false_iff, Bool.or_eq_false_iff, Bool.or_eq_false_iff]
  refine ⟨⟨⟨?_, ?_⟩, ?_⟩, ?_⟩
  · rw [List.isEmpty_eq_false]
    exact List.ne_nil_of_mem hc
  · rw [decide_eq_false_iff_not]
    exact upper_ne_of_hasDigit h (by decide)
  · rw [decide_eq_false_iff_not]
    exact upper_ne_of_hasDigit h (by decide)
  · rw [decide_eq_false_iff_not]
    intro he
    unfold pyUpper at he
    rw [List.map_eq_nil_iff] at he
    subst he
    simp at hc

/-- C6, counterexample: the parser does not return the first signed decimal
number, and `import_cre_data.parse_rate` does not strip currency symbols
before matching.  For `"-5.5"` the first signed decimal number is `-5.5`,
but the regex group has no sign, so the code yields `5.5`; for `"1$.5"` the
un-stripped `$` truncates the match to `1` while the sync variant, which
strips `$` first, reads `1.5`. -/
theorem rate_parser_sign_cx :
    parse_rate ("-5.5".toList) = some (mkRat 11 2) ∧ mkRat 11 2 ≠ -(mkRat 11 2) ∧
    parse_rate ("1$.5".toList) = some (mkRat 1 1) ∧
    parse_rate_sync ("1$.5".toList) = some (mkRat 3 2) := by decide

/-- C6 as amended: for every text containing a digit, each rate parser
returns the first unsigned decimal number of its cleaned text —
`import_cre_data.parse_rate` removes only commas before the regex search
(whose optional `[$]?` prefix never changes the captured group), while the
sync variant removes both `$` and commas; for text with no digit (including
`N/A` and empty text) both return null. -/
theorem rate_parser_first_number (s : PyStr) :
    (hasDigit s = true →
      parse_rate s = some (firstNumberVal (s.filter (fun c => c ≠ ','))) ∧
      parse_rate_sync s =
        some (firstNumberVal (s.filter (fun c => !(c = '$' || c = ','))))) ∧
    (hasDigit s = false → parse_rate s = none ∧ parse_rate_sync s = none) := by
  have hp1 : ∀ c : Char, c.isDigit = true → (decide (c ≠ ',')) = true := by
    intro c hc
    rw [decide_eq_true_eq]
    intro hcc
    rw [hcc] at hc
    exact absurd hc (by decide)
  have hp2 : ∀ c : Char, c.isDigit = true → (!((c = '$' : Bool) || (c = ',' : Bool))) = true := by
    intro c hc
    have h1 : (c = '$' : Bool) = false :=
      decide_eq_false (fun hcc => absurd (hcc ▸ hc) (by decide))
    have h2 : (c = ',' : Bool) = false :=
      decide_eq_false (fun hcc => absurd (hcc ▸ hc) (by decide))
    rw [h1, h2]
    rfl
  constructor
  · intro h
    have hg := sqftGuard_false_of_hasDigit h
    have hgs := sqftGuardSync_false_of_hasDigit h
    unfold parse_rate parse_rate_sync
    rw [if_neg (by simp [hg]), if_neg (by simp [hgs]), scanNumber_eq, scanNumber_eq,
      if_pos (by rw [hasDigit_filter hp1]; exact h),
      if_pos (by rw [hasDigit_filter hp2]; exact h)]
    exact ⟨rfl, rfl⟩
  · intro h
    constructor
    · unfold parse_rate
      by_cases hg : sqftGuard s = true
      · rw [if_pos hg]
      · rw [if_neg hg, scanNumber_eq,
          if_neg (by rw [hasDigit_filter hp1, h]; exact Bool.false_ne_true)]
    · unfold parse_rate_sync
      by_cases hg : sqftGuardSync s = true
      · rw [if_pos hg]
      · rw [if_neg hg, scanNumber_eq,
          if_neg (by rw [hasDigit_filter hp2, h]; exact Bool.false_ne_true)]

/-- C6 witness: the spec's example, `"$45.50/sq ft/year"`, parses to
45.50. -/
theorem rate_parser_first_number_witness :
    parse_rate ("$45.50/sq ft/year".toList) = some (mkRat 91 2) :=
  ((rate_parser_first_number ("$45.50/sq ft/year".toList)).1 (by decide)).1.trans (by decide)


/-! ## Claim C3: square-footage parser -/

/-- C3: full functional characterisation of
`import_cre_data.parse_square_footage`.  Blank or `N/A` input gives
`(null, null)`; otherwise, on the cleaned text, a hyphenated range `A-B`
(`A`, `B` the first two pieces of the split) yields `(A, B)` when both sides
parse as integers, `null` on an empty side, and `(null, null)` when a
nonempty side is not an integer; with no hyphen, an integer `n` yields
`(n, n)` and anything else `(null, null)`. -/
theorem square_footage_parser_spec (s : PyStr) :
    (sqftGuard s = true → parse_square_footage s = (none, none)) ∧
    (sqftGuard s = false →
      ((sqftClean s).contains '-' = true →
        ((pySplit '-' (sqftClean s)).getD 0 [] = [] →
          (pySplit '-' (sqftClean s)).getD 1 [] = [] →
          parse_square_footage s = (none, none)) ∧
        ((pySplit '-' (sqftClean s)).getD 0 [] = [] →
          ∀ b : Int, pyInt? ((pySplit '-' (sqftClean s)).getD 1 []) = some b →
          parse_square_footage s = (none, some b)) ∧
        ((pySplit '-' (sqftClean s)).getD 1 [] = [] →
          ∀ a : Int, pyInt? ((pySplit '-' (sqftClean s)).getD 0 []) = some a →
          parse_square_footage s = (some a, none)) ∧
        (∀ a b : Int, pyInt? ((pySplit '-' (sqftClean s)).getD 0 []) = some a →
          pyInt? ((pySplit '-' (sqftClean s)).getD 1 []) = some b →
          parse_square_footage s = (some a, some b)) ∧
        ((((pySplit '-' (sqftClean s)).getD 0 [] ≠ [] ∧
            pyInt? ((pySplit '-' (sqftClean s)).getD 0 []) = none) ∨
          ((pySplit '-' (sqftClean s)).getD 1 [] ≠ [] ∧
            pyInt? ((pySplit '-' (sqftClean s)).getD 1 []) = none)) →
          parse_square_footage s = (none, none))) ∧
      ((sqftClean s).contains '-' = false →
        (∀ n : Int, pyInt? (sqftClean s) = some n →
          parse_square_footage s = (some n, some n)) ∧
        (pyInt? (sqftClean s) = none → parse_square_footage s = (none, none)))) := by
  by_cases hg : sqftGuard s = true
  · refine ⟨fun _ => ?_, fun hgf => absurd hgf (by simp [hg])⟩
    unfold parse_square_footage
    rw [if_pos hg]
  · have hgf : sqftGuard s = false := by simpa using hg
    refine ⟨fun hgt => absurd hgt hg, fun _ => ?_⟩
    constructor
    · intro hyph
      have hstep : parse_square_footage s =
          match (if ((pySplit '-' (sqftClean s)).getD 0 []).isEmpty then some none
                 else (pyInt? ((pySplit '-' (sqftClean s)).getD 0 [])).map some),
                (if ((pySplit '-' (sqftClean s)).getD 1 []).isEmpty then some none
                 else (pyInt? ((pySplit '-' (sqftClean s)).getD 1 [])).map some) with
          | some mn, some mx => (mn, mx)
          | _, _ => (none, none) := by
        unfold parse_square_footage
        rw [if_neg hg, if_pos hyph]
      refine ⟨?_, ?_, ?_, ?_, ?_⟩
      · intro h0 h1
        rw [hstep, h0, h1]
        rfl
      · intro h0 b hb
        rw [hstep, h0, hb]
        have h1 : ((pySplit '-' (sqftClean s)).getD 1 []).isEmpty = false := by
          cases hc : (pySplit '-' (sqftClean s)).getD 1 [] with
          | nil => rw [hc] at hb; exact Option.noConfusion hb
          | cons x xs => simp
        rw [h1]
        rfl
      · intro h1 a ha
        rw [hstep, h1, ha]
        have h0 : ((pySplit '-' (sqftClean s)).getD 0 []).isEmpty = false := by
          cases hc : (pySplit '-' (sqftClean s)).getD 0 [] with
          | nil => rw [hc] at ha; exact Option.noConfusion ha
          | cons x xs => simp
        rw [h0]
        rfl
      · intro a b ha hb
        rw [hstep, ha, hb]
        have h0 : ((pySplit '-' (sqftClean s)).getD 0 []).isEmpty = false := by
          cases hc : (pySplit '-' (sqftClean s)).getD 0 [] with
          | nil => rw [hc] at ha; exact Option.noConfusion ha
          | cons x xs => simp
        have h1 : ((pySplit '-' (sqftClean s)).getD 1 []).isEmpty = false := by
          cases hc : (pySplit '-' (sqftClean s)).getD 1 [] with
          | nil => rw [hc] at hb; exact Option.noConfusion hb
          | cons x xs => simp
        rw [h0, h1]
        rfl
      · rintro (⟨h0ne, h0n⟩ | ⟨h1ne, h1n⟩)
        · rw [hstep, h0n]
          rw [show ((pySplit '-' (sqftClean s)).getD 0 []).isEmpty = false by
            simpa using h0ne]
          cases (if ((pySplit '-' (sqftClean s)).getD 1 []).isEmpty then some none
              else (pyInt? ((pySplit '-' (sqftClean s)).getD 1 [])).map some) <;> rfl
        · rw [hstep, h1n]
          rw [show ((pySplit '-' (sqftClean s)).getD 1 []).isEmpty = false by
            simpa using h1ne]
          cases hx : (if ((pySplit '-' (sqftClean s)).getD 0 []).isEmpty then some none
              else (pyInt? ((pySplit '-' (sqftClean s)).getD 0 [])).map some) with
          | none => rfl
          | some v => rfl
    · intro hnh
      have hstep : parse_square_footage s =
          match pyInt? (sqftClean s) with
          | some v => (some v, some v)
          | none => (none, none) := by
        unfold parse_square_footage
        rw [if_neg hg, if_neg (by rw [hnh]; exact Bool.false_ne_true)]
      exact ⟨fun n hn => by rw [hstep, hn], fun hn => by rw [hstep, hn]⟩

/-- C3 witness: the range `"1,000-45000"` parses to `(1000, 45000)`. -/
theorem square_footage_parser_spec_witness :
    parse_square_footage ("1,000-45000".toList) = (some 1000, some 45000) :=
  ((((square_footage_parser_spec ("1,000-45000".toList)).2 (by decide)).1
      (by decide)).2.2.2.1) 1000 45000 (by decide) (by decide)


/-! ## Claim C10: the two square-footage parsers -/

theorem bool_ne_true {b : Bool} (h : b = false) : ¬b = true := by
  rw [h]
  exact Bool.false_ne_true

theorem pySplitP_eq_singleton {p : Char → Bool} {l : PyStr} (h : ∀ c ∈ l, p c = false) :
    pySplitP p l = [l] := by
  have hx := pySplitP_sepFree_append h []
  rw [List.append_nil] at hx
  rw [hx]
  simp [pySplitP]

theorem mem_of_contains {l : PyStr} {c : Char} (h : l.contains c = true) : c ∈ l := by
  simpa [List.contains, List.elem_eq_mem] using h

theorem pyInt?_eq_none_of_head_bad {c : Char} {rest : PyStr}
    (hplus : c ≠ '+') (hminus : c ≠ '-') (hdig : c.isDigit = false) :
    pyInt? (c :: rest) = none := by
  unfold pyInt?
  split
  · next rest' heq =>
    rw [List.cons.injEq] at heq
    exact absurd heq.1 hplus
  · next rest' heq =>
    rw [List.cons.injEq] at heq
    exact absurd heq.1 hminus
  · next l' h1 h2 =>
    rw [if_neg]
    intro hgd
    rw [show groupedDigits (c :: rest) = (c.isDigit && groupedRest rest) from rfl,
      hdig] at hgd
    simp at hgd

theorem pyUpper_eq_three {s : PyStr} {d1 d2 d3 : Char} (h : pyUpper s = [d1, d2, d3]) :
    ∃ c1 c2 c3, s = [c1, c2, c3] ∧
      (c1.toNat = d1.toNat ∨ c1.toNat = d1.toNat + 32) ∧
      (c2.toNat = d2.toNat ∨ c2.toNat = d2.toNat + 32) ∧
      (c3.toNat = d3.toNat ∨ c3.toNat = d3.toNat + 32) := by
  unfold pyUpper at h
  cases s with
  | nil => simp at h
  | cons c1 s1 =>
    cases s1 with
    | nil => simp at h
    | cons c2 s2 =>
      cases s2 with
      | nil => simp at h
      | cons c3 s3 =>
        cases s3 with
        | cons c4 s4 => simp at h
        | nil =>
          simp only [List.map_cons, List.map_nil, List.cons.injEq, and_true] at h
          exact ⟨c1, c2, c3, rfl, toNat_of_toUpper_eq h.1,
            toNat_of_toUpper_eq h.2.1, toNat_of_toUpper_eq h.2.2⟩

theorem sqftClean_eq_nil_of_strip_nil {s : PyStr} (h : pyStrip s = []) :
    sqftClean s = [] := by
  rw [pyStrip_eq_nil_iff] at h
  unfold sqftClean
  rw [List.filter_eq_nil_iff]
  intro c hc
  simp [h c hc]

theorem mem_of_mem_sqftClean {s : PyStr} {c : Char} (h : c ∈ sqftClean s) : c ∈ s :=
  (List.mem_filter.mp h).1

/-- C10, counterexample: the two square-footage implementations disagree.
For `"100-"` the `import_cre_data` version returns `(100, null)` (an empty
side becomes null), while the sync version's `int('')` raises inside the
range branch, giving `(null, null)`. -/
theorem sqft_parsers_cx :
    parse_square_footage ("100-".toList) = (some 100, none) ∧
    parse_square_footage_sync ("100-".toList) = (none, none) := by decide

/-- C10 as amended: the two parsers agree on every input whose cleaned text
either contains no hyphen or splits on hyphens into exactly two nonempty
parts; they can differ when a range side is empty or when the cleaned text
has two or more hyphens. -/
theorem sqft_parsers_agree (s : PyStr)
    (h : (sqftClean s).contains '-' = false ∨
      ((pySplit '-' (sqftClean s)).length = 2 ∧
        ∀ t ∈ pySplit '-' (sqftClean s), t ≠ [])) :
    parse_square_footage s = parse_square_footage_sync s := by
  rcases h with hnc | ⟨hlen, hne⟩
  · -- no hyphen in the cleaned text
    by_cases hg1 : sqftGuard s = true
    · have hv1 : parse_square_footage s = (none, none) := by
        unfold parse_square_footage
        rw [if_pos hg1]
      have hg1' := hg1
      unfold sqftGuard at hg1'
      rw [Bool.or_eq_true, Bool.or_eq_true] at hg1'
      rcases hg1' with (hemp | hna) | hst
      · -- empty input
        rw [List.isEmpty_eq_true] at hemp
        subst hemp
        rfl
      · -- literal N/A
        rw [hv1]
        unfold parse_square_footage_sync
        rw [if_pos (by simp only [sqftGuardSync, hna]; simp)]
      · -- whitespace-only input
        rw [hv1]
        by_cases hg2 : sqftGuardSync s = true
        · unfold parse_square_footage_sync
          rw [if_pos hg2]
        · have hclean : sqftClean s = [] :=
            sqftClean_eq_nil_of_strip_nil (by simpa using hst)
          unfold parse_square_footage_sync
          rw [if_neg hg2, hclean]
          rfl
    · have hg1f : sqftGuard s = false := by simpa using hg1
      by_cases hg2 : sqftGuardSync s = true
      · -- only the TBD guard can distinguish the two
        have hv2 : parse_square_footage_sync s = (none, none) := by
          unfold parse_square_footage_sync
          rw [if_pos hg2]
        have htbd : pyUpper s = "TBD".toList := by
          have hg2' := hg2
          unfold sqftGuardSync at hg2'
          rw [Bool.or_eq_true, Bool.or_eq_true, Bool.or_eq_true] at hg2'
          rcases hg2' with ((hemp | hna) | htbd) | hue
          · exact absurd (by simp only [sqftGuard, hemp]; simp) hg1
          · exact absurd (by simp only [sqftGuard, hna]; simp) hg1
          · simpa using htbd
          · have hsn : pyUpper s = [] := by simpa using hue
            unfold pyUpper at hsn
            rw [List.map_eq_nil_iff] at hsn
            subst hsn
            exact absurd (by simp [sqftGuard]) hg1
        obtain ⟨c1, c2, c3, hs, h1, h2, h3⟩ := pyUpper_eq_three htbd
        have h1' : c1.toNat = 84 ∨ c1.toNat = 116 := by
          rw [show ('T').toNat = 84 from rfl] at h1
          omega
        have h2' : c2.toNat = 66 ∨ c2.toNat = 98 := by
          rw [show ('B').toNat = 66 from rfl] at h2
          omega
        have h3' : c3.toNat = 68 ∨ c3.toNat = 100 := by
          rw [show ('D').toNat = 68 from rfl] at h3
          omega
        have hint : pyInt? (sqftClean s) = none := by
          cases hcc : sqftClean s with
          | nil => rfl
          | cons c rest =>
            have hcm : c ∈ s := mem_of_mem_sqftClean (by rw [hcc]; exact List.mem_cons_self _ _)
            have hcn : c.toNat = 84 ∨ c.toNat = 116 ∨ c.toNat = 66 ∨ c.toNat = 98 ∨
                c.toNat = 68 ∨ c.toNat = 100 := by
              rw [hs] at hcm
              rcases List.mem_cons.mp hcm with rfl | hcm2
              · omega
              · rcases List.mem_cons.mp hcm2 with rfl | hcm3
                · omega
                · rcases List.mem_cons.mp hcm3 with rfl | hcm4
                  · omega
                  · simp at hcm4
            apply pyInt?_eq_none_of_head_bad
            · intro hcc
              rw [hcc, show ('+').toNat = 43 from rfl] at hcn
              omega
            · intro hcc
              rw [hcc, show ('-').toNat = 45 from rfl] at hcn
              omega
            · cases hd : c.isDigit with
              | false => rfl
              | true =>
                exfalso
                rw [isDigit_iff] at hd
                omega
        rw [hv2]
        unfold parse_square_footage
        rw [if_neg hg1, if_neg (bool_ne_true hnc), hint]
      · -- neither guard fires: both take the single-value branch
        have hg2f : sqftGuardSync s = false := by simpa using hg2
        have hv1 : parse_square_footage s =
            match pyInt? (sqftClean s) with
            | some v => (some v, some v)
            | none => (none, none) := by
          unfold parse_square_footage
          rw [if_neg hg1, if_neg (bool_ne_true hnc)]
        have hv2 : parse_square_footage_sync s =
            match pyInt? (sqftClean s) with
            | some v => (some v, some v)
            | none => (none, none) := by
          unfold parse_square_footage_sync
          rw [if_neg hg2]
          simp only [hnc]
          rfl
        rw [hv1, hv2]
  · -- exactly two nonempty range parts
    have hcont : (sqftClean s).contains '-' = true := by
      by_contra hcf
      have hcf' : (sqftClean s).contains '-' = false := by simpa using hcf
      have hsing : pySplit '-' (sqftClean s) = [sqftClean s] := by
        apply pySplitP_eq_singleton
        intro c hc
        rw [decide_eq_false_iff_not]
        intro hcc
        subst hcc
        have : ('-') ∈ sqftClean s := hc
        simp [List.contains] at hcf'
        exact hcf' this
      rw [hsing] at hlen
      simp at hlen
    have hhm : ('-') ∈ s := mem_of_mem_sqftClean (mem_of_contains hcont)
    have hsne : s ≠ [] := List.ne_nil_of_mem hhm
    have hupper_ne : ∀ d1 d2 d3 : Char, d1.toNat ≤ 122 → d2.toNat ≤ 122 → d3.toNat ≤ 122 →
        d1.toNat ≠ 45 → d2.toNat ≠ 45 → d3.toNat ≠ 45 →
        (d1.toNat + 32 ≠ 45 ∧ d2.toNat + 32 ≠ 45 ∧ d3.toNat + 32 ≠ 45) →
        pyUpper s ≠ [d1, d2, d3] := by
      intro d1 d2 d3 _ _ _ hn1 hn2 hn3 hplus hu
      obtain ⟨c1, c2, c3, hs, h1, h2, h3⟩ := pyUpper_eq_three hu
      rw [hs] at hhm
      have h45 : ('-').toNat = 45 := rfl
      rcases List.mem_cons.mp hhm with he | hm2
      · rw [← he] at h1
        rw [h45] at h1
        omega
      · rcases List.mem_cons.mp hm2 with he | hm3
        · rw [← he] at h2
          rw [h45] at h2
          omega
        · rcases List.mem_cons.mp hm3 with he | hm4
          · rw [← he] at h3
            rw [h45] at h3
            omega
          · simp at hm4
    have hstrip : pyStrip s ≠ [] := pyStrip_ne_nil hhm (by decide)
    have hg1f : sqftGuard s = false := by
      unfold sqftGuard
      rw [Bool.or_eq_false_iff, Bool.or_eq_false_iff]
      refine ⟨⟨by simpa using hsne, ?_⟩, by simpa using hstrip⟩
      rw [decide_eq_false_iff_not]
      exact hupper_ne 'N' '/' 'A' (by decide) (by decide) (by decide)
        (by decide) (by decide) (by decide) (by decide)
    have hg2f : sqftGuardSync s = false := by
      unfold sqftGuardSync
      rw [Bool.or_eq_false_iff, Bool.or_eq_false_iff, Bool.or_eq_false_iff]
      refine ⟨⟨⟨by simpa using hsne, ?_⟩, ?_⟩, ?_⟩
      · rw [decide_eq_false_iff_not]
        exact hupper_ne 'N' '/' 'A' (by decide) (by decide) (by decide)
          (by decide) (by decide) (by decide) (by decide)
      · rw [decide_eq_false_iff_not]
        exact hupper_ne 'T' 'B' 'D' (by decide) (by decide) (by decide)
          (by decide) (by decide) (by decide) (by decide)
      · rw [decide_eq_false_iff_not]
        unfold pyUpper
        rw [List.map_eq_nil_iff]
        exact hsne
    obtain ⟨a, b, hab⟩ := List.length_eq_two.mp hlen
    have ha : a ≠ [] := hne a (by rw [hab]; exact List.mem_cons_self _ _)
    have hb : b ≠ [] := hne b (by rw [hab]; exact List.mem_cons_of_mem a (List.mem_cons_self _ _))
    have hget0 : (pySplit '-' (sqftClean s)).getD 0 [] = a := by rw [hab]; rfl
    have hget1 : (pySplit '-' (sqftClean s)).getD 1 [] = b := by rw [hab]; rfl
    have hstep1 : parse_square_footage s =
        match (if a.isEmpty then some none else (pyInt? a).map some),
              (if b.isEmpty then some none else (pyInt? b).map some) with
        | some mn, some mx => (mn, mx)
        | _, _ => (none, none) := by
      unfold parse_square_footage
      rw [if_neg (bool_ne_true hg1f), if_pos hcont, hab]
      rfl
    rw [show a.isEmpty = false by simpa using ha,
      show b.isEmpty = false by simpa using hb] at hstep1
    have hstep2 : parse_square_footage_sync s =
        match (match pyInt? a, pyInt? b with
               | some x, some y => some ((some x : Option Int), (some y : Option Int))
               | _, _ => some ((none : Option Int), (none : Option Int))) with
        | some r => r
        | none =>
          match pyInt? (sqftClean s) with
          | some v => (some v, some v)
          | none => (none, none) := by
      unfold parse_square_footage_sync
      rw [if_neg (bool_ne_true hg2f)]
      simp only [hcont, hab]
      rfl
    rw [hstep1, hstep2]
    cases pyInt? a <;> cases pyInt? b <;> rfl

/-- C10 witness: the parsers agree on the ordinary range `"1,000-45000"`. -/
theorem sqft_parsers_agree_witness :
    parse_square_footage ("1,000-45000".toList) =
      parse_square_footage_sync ("1,000-45000".toList) :=
  sqft_parsers_agree ("1,000-45000".toList) (by decide)


end CreConsole
